import Mathlib

/-!
VKR voice-identification client: capture sessions and page workflows.

A shallow embedding of the two page components of the client
(`RecordPage.jsx`, `MonitorPage.jsx`), of the gateway functions of
`apiClient.js` they call, and of the page switch of `App.jsx`.

Modelling conventions.

* The browser is an explicit value `Env`: pending device requests, live media
  tracks, recorder states, open audio contexts, interval timers and pending
  animation-frame requests.
* One synchronous run of the body of `startRecording` after its `await`
  creates a stream, a recorder, an audio context, an interval and a sampling
  loop.  All handles created by that one run are named by the same number,
  the session number, taken from `Env.nextId`.
* A sampling loop has at most one pending animation-frame request, so a
  pending request is named by the session whose loop issued it;
  `animationRef` then holds the session whose loop requested a frame last.
* Every `await` is a suspension point: the part of a handler before it and
  the part after it are separate transitions, and other handlers may run in
  between.
* JavaScript numbers are modelled by rationals, the literal `0.8` by `4/5`; the product
  `result.confidence * 100` that is displayed is rounded to binary64 (`mulDouble`).
* Event handlers read component state of the latest render.
-/

namespace VKR

/-! ## Browser environment -/

/-- One encoded chunk delivered by a recorder: the session that produced it and its size. -/
structure Chunk where
  session : Nat
  size : Nat
deriving DecidableEq, Repr

/-- The value of `new Blob(chunks, { type: 'audio/wav' })`: the chunks in order. -/
abbrev Blob := List Chunk

/-- Browser state that the pages acquire and release. -/
structure Env where
  /-- next fresh session number -/
  nextId : Nat
  /-- number of `getUserMedia` calls not yet settled -/
  requests : Nat
  /-- streams whose tracks are live -/
  tracks : List Nat
  /-- recorders in state `recording` -/
  recording : List Nat
  /-- recorders on which `stop()` was called and whose `stop` event is not yet dispatched -/
  finalizing : List Nat
  /-- audio contexts that are not closed -/
  contexts : List Nat
  /-- intervals that are not cleared -/
  timers : List Nat
  /-- pending animation-frame requests, in callback order -/
  frames : List Nat
  /-- every blob built by a recorder completion handler, with its session -/
  emitted : List (Nat × Blob)
deriving DecidableEq, Repr

namespace Env

/-- The browser before any page has acquired anything. -/
def empty : Env :=
  { nextId := 0, requests := 0, tracks := [], recording := [], finalizing := [],
    contexts := [], timers := [], frames := [], emitted := [] }

/-- Call of `navigator.mediaDevices.getUserMedia({ audio: true })`: one more pending request. -/
def getUserMedia (e : Env) : Env :=
  { e with requests := e.requests + 1 }

/-- A pending device request resolves with a fresh stream whose tracks are live. -/
def resolveUserMedia (e : Env) : Env :=
  { e with requests := e.requests - 1, nextId := e.nextId + 1, tracks := e.tracks ++ [e.nextId] }

/-- A pending device request is rejected (permission denied, no device). -/
def rejectUserMedia (e : Env) : Env :=
  { e with requests := e.requests - 1 }

/-- Effect of `new AudioContext()` for session `k`. -/
def newAudioContext (e : Env) (k : Nat) : Env :=
  { e with contexts := e.contexts ++ [k] }

/-- Effect of `audioContext.close()`. -/
def closeAudioContext (e : Env) (k : Nat) : Env :=
  { e with contexts := e.contexts.filter (fun c => c != k) }

/-- Effect of `mediaRecorder.start()`. -/
def startRecorder (e : Env) (k : Nat) : Env :=
  { e with recording := e.recording ++ [k] }

/-- Effect of `mediaRecorder.stop()` on a recorder in state `recording`: the recorder becomes
inactive and its `stop` event is queued. -/
def stopRecorder (e : Env) (k : Nat) : Env :=
  { e with recording := e.recording.filter (fun r => r != k), finalizing := e.finalizing ++ [k] }

/-- The queued `stop` event of recorder `k` is dispatched. -/
def dispatchStop (e : Env) (k : Nat) : Env :=
  { e with finalizing := e.finalizing.erase k }

/-- Effect of `new Blob(chunks, ...)` inside the completion handler of session `k`. -/
def newBlob (e : Env) (k : Nat) (b : Blob) : Env :=
  { e with emitted := e.emitted ++ [(k, b)] }

/-- Effect of `stream.getTracks().forEach(track => track.stop())`. -/
def stopTracks (e : Env) (k : Nat) : Env :=
  { e with tracks := e.tracks.filter (fun t => t != k) }

/-- Effect of `setInterval(...)` in session `k`. -/
def setInterval (e : Env) (k : Nat) : Env :=
  { e with timers := e.timers ++ [k] }

/-- Effect of `clearInterval(id)`; clearing `null` does nothing. -/
def clearInterval (e : Env) : Option Nat → Env
  | some k => { e with timers := e.timers.filter (fun t => t != k) }
  | none => e

/-- Effect of `requestAnimationFrame(updateLevel)` by the loop of session `k`. -/
def requestAnimationFrame (e : Env) (k : Nat) : Env :=
  { e with frames := e.frames ++ [k] }

/-- Effect of `cancelAnimationFrame(id)`; cancelling `null` does nothing. -/
def cancelAnimationFrame (e : Env) : Option Nat → Env
  | some k => { e with frames := e.frames.filter (fun f => f != k) }
  | none => e

/-- Number of blobs emitted for session `k`. -/
def emittedCount (e : Env) (k : Nat) : Nat :=
  (e.emitted.filter (fun p => p.1 == k)).length

end Env

/-! ## Level sampling -/

/-- The value of `analyser.fftSize` set by `startRecording`. -/
def fftSize : Nat := 256

/-- The value of `analyser.frequencyBinCount`: half the transform size. -/
def frequencyBinCount : Nat := fftSize / 2

/-- The value of `dataArray.reduce((a, b) => a + b)`: the call throws on an empty array. -/
def reduceSum : List Nat → Option Nat
  | [] => none
  | a :: rest => some (rest.foldl (fun x y => x + y) a)

/-- The level passed to `setAudioLevel` by `updateLevel`: `average / 255` with
`average = sum / bufferLength`; `none` when `reduce` throws. -/
def updateLevel (dataArray : List Nat) : Option ℚ :=
  (reduceSum dataArray).map (fun total => ((total : ℚ) / (frequencyBinCount : ℚ)) / 255)

/-- What `getByteFrequencyData` writes into the `Uint8Array(bufferLength)`: one byte per bin. -/
def validBins (dataArray : List Nat) : Bool :=
  dataArray.length == frequencyBinCount && dataArray.all (fun b => b ≤ 255)

/-! ## Gateway functions of `apiClient.js` -/

/-- Outcome of one `fetch`: the promise rejects, or resolves with a response that has an
`ok` flag and a body that parses (`some`) or does not (`none`). -/
inductive Fetched (α : Type) where
  | failed : Fetched α
  | response (ok : Bool) (json : Option α) : Fetched α
deriving DecidableEq, Repr

/-- The settled value of an `async` gateway function: it throws when the fetch rejects, when
`response.ok` is false and when the body does not parse. -/
def settle {α : Type} (message : String) : Fetched α → Except String α
  | .failed => .error "fetch failed"
  | .response false _ => .error message
  | .response true none => .error "invalid json"
  | .response true (some v) => .ok v

/-- The object returned by the identify endpoint. -/
structure IdentificationResult where
  identified_speaker : String
  confidence : ℚ
  model_used : String
deriving DecidableEq, Repr

/-- The settled value of `identifySpeaker(audioBlob)`. -/
def identifySpeaker (f : Fetched IdentificationResult) : Except String IdentificationResult :=
  settle "Identification failed" f

/-- The settled value of `registerAudioSample(speakerName, sampleNumber, audioBlob)`. -/
def registerAudioSample (f : Fetched Unit) : Except String Unit :=
  settle "Registration failed" f

/-! ## RecordPage: the identification workflow -/

/-- The values of the `status` state variable of `RecordPage`. -/
inductive Status where
  | idle | recording | processing | success | denied
deriving DecidableEq, Repr

/-- Component state and refs of `RecordPage`. -/
structure RecordPage where
  isRecording : Bool
  recordingTime : ℚ
  audioLevel : ℚ
  status : Status
  result : Option IdentificationResult
  mediaRecorderRef : Option Nat
  audioContextRef : Option Nat
  analyserRef : Option Nat
  chunksRef : List Chunk
  timerRef : Option Nat
  animationRef : Option Nat
deriving DecidableEq, Repr

/-- A mounted `RecordPage` together with the browser and its outstanding identify calls. -/
structure RecordSys where
  env : Env
  ui : RecordPage
  /-- sessions whose `identifySpeaker` call has not settled -/
  identifying : List Nat
deriving DecidableEq, Repr

namespace RecordPage

/-- State of a freshly mounted `RecordPage`. -/
def init : RecordPage :=
  { isRecording := false, recordingTime := 0, audioLevel := 0, status := .idle, result := none,
    mediaRecorderRef := none, audioContextRef := none, analyserRef := none, chunksRef := [],
    timerRef := none, animationRef := none }

/-- A freshly mounted `RecordPage` in a browser that holds nothing. -/
def initSys : RecordSys :=
  { env := Env.empty, ui := init, identifying := [] }

/-- The part of `startRecording` up to its `await`: the device is requested. -/
def startRecording (s : RecordSys) : RecordSys :=
  { s with env := s.env.getUserMedia }

/-- The `catch` branch of `startRecording` when the device request is rejected: an alert. -/
def startRecordingRejected (s : RecordSys) : RecordSys :=
  { s with env := s.env.rejectUserMedia }

/-- The part of `startRecording` after `getUserMedia` resolved.  `dataArray` is what the first
synchronous call of `updateLevel` reads.  When `reduce` throws there, the `catch` branch runs
and neither the frame request nor the interval is made. -/
def startRecordingResolved (dataArray : List Nat) (s : RecordSys) : RecordSys :=
  let k := s.env.nextId
  let env := ((s.env.resolveUserMedia).newAudioContext k).startRecorder k
  let ui := { s.ui with
    mediaRecorderRef := some k, chunksRef := [], audioContextRef := some k,
    analyserRef := some k, isRecording := true, status := .recording, recordingTime := 0 }
  match updateLevel dataArray with
  | some level =>
    { s with
      env := (env.requestAnimationFrame k).setInterval k,
      ui := { ui with audioLevel := level, animationRef := some k, timerRef := some k } }
  | none => { s with env := env, ui := ui }

/-- The handler `ondataavailable`: a non-empty chunk is pushed to `chunksRef.current`. -/
def ondataavailable (k size : Nat) (s : RecordSys) : RecordSys :=
  if size > 0 then
    { s with ui := { s.ui with chunksRef := s.ui.chunksRef ++ [{ session := k, size := size }] } }
  else s

/-- One animation frame: every pending `updateLevel` callback runs in request order, sets the
level, requests its next frame and stores that request in `animationRef`.  When `reduce`
throws, no callback requests a next frame. -/
def animationFrame (dataArray : List Nat) (s : RecordSys) : RecordSys :=
  match s.env.frames.getLast?, updateLevel dataArray with
  | some k, some level => { s with ui := { s.ui with audioLevel := level, animationRef := some k } }
  | some _, none => { s with env := { s.env with frames := [] } }
  | none, _ => s

/-- One firing of the interval callback: `setRecordingTime(prev => prev + 0.1)`. -/
def tick (s : RecordSys) : RecordSys :=
  { s with ui := { s.ui with recordingTime := s.ui.recordingTime + 1 / 10 } }

/-- The handler `stopRecording`.  Calling `stop()` on a recorder that is not recording throws,
which ends the handler before anything else is done. -/
def stopRecording (s : RecordSys) : RecordSys :=
  match s.ui.mediaRecorderRef, s.ui.isRecording with
  | some r, true =>
    if r ∈ s.env.recording then
      let env := s.env.stopRecorder r
      let env := env.clearInterval s.ui.timerRef
      let env := env.cancelAnimationFrame s.ui.animationRef
      let env := match s.ui.audioContextRef with
        | some c => env.closeAudioContext c
        | none => env
      { s with env := env, ui := { s.ui with isRecording := false } }
    else s
  | _, _ => s

/-- The part of the recorder's `onstop` handler of session `k` up to its `await`: the blob is
built, the tracks of the captured stream are stopped, the status becomes `processing` and
`identifySpeaker` is called. -/
def onstop (k : Nat) (s : RecordSys) : RecordSys :=
  let audioBlob : Blob := s.ui.chunksRef
  { s with
    env := (((s.env.dispatchStop k).newBlob k audioBlob).stopTracks k),
    ui := { s.ui with status := .processing },
    identifying := s.identifying ++ [k] }

/-- The part of `onstop` after `identifySpeaker` settled: the `try` continuation on a value,
the `catch` branch on an error. -/
def onstopSettled (k : Nat) (outcome : Except String IdentificationResult) (s : RecordSys) :
    RecordSys :=
  match outcome with
  | .ok response =>
    { s with
      ui := { s.ui with
        result := some response,
        status := if response.confidence > 4 / 5 then .success else .denied },
      identifying := s.identifying.erase k }
  | .error _ =>
    { s with ui := { s.ui with status := .denied }, identifying := s.identifying.erase k }

/-- The handler `resetRecording`. -/
def resetRecording (s : RecordSys) : RecordSys :=
  { s with ui := { s.ui with status := .idle, result := none, recordingTime := 0, audioLevel := 0 } }

/-- The confidence shown by the rendered page: the success view needs `status === 'success'`
and a result, the denied view shows it when `status === 'denied'` and a result is stored. -/
def displayedConfidence (p : RecordPage) : Option ℚ :=
  match p.status, p.result with
  | .success, some r => some r.confidence
  | .denied, some r => some r.confidence
  | _, _ => none

end RecordPage

/-- What can happen to a mounted `RecordPage`: clicks on rendered buttons and callbacks from
the browser. -/
inductive RecordEvent where
  | clickStart
  | clickStop
  | clickReset
  | granted (dataArray : List Nat)
  | rejected
  | dataavailable (k size : Nat)
  | stopped (k : Nat)
  | identified (k : Nat) (f : Fetched IdentificationResult)
  | tick (k : Nat)
  | frame (dataArray : List Nat)
deriving DecidableEq, Repr

namespace RecordPage

/-- Whether an event can occur: a button must be rendered, a callback must have been
registered or queued. -/
def enabled (s : RecordSys) : RecordEvent → Bool
  | .clickStart => s.ui.status == .idle
  | .clickStop => s.ui.status == .recording
  | .clickReset => s.ui.status == .success || s.ui.status == .denied
  | .granted dataArray => decide (0 < s.env.requests) && validBins dataArray
  | .rejected => decide (0 < s.env.requests)
  | .dataavailable k _ => decide (k ∈ s.env.recording) || decide (k ∈ s.env.finalizing)
  | .stopped k => decide (k ∈ s.env.finalizing)
  | .identified k _ => decide (k ∈ s.identifying)
  | .tick k => decide (k ∈ s.env.timers)
  | .frame dataArray => !s.env.frames.isEmpty && validBins dataArray

/-- The handler run by an event. -/
def handle (s : RecordSys) : RecordEvent → RecordSys
  | .clickStart => startRecording s
  | .clickStop => stopRecording s
  | .clickReset => resetRecording s
  | .granted dataArray => startRecordingResolved dataArray s
  | .rejected => startRecordingRejected s
  | .dataavailable k size => ondataavailable k size s
  | .stopped k => onstop k s
  | .identified k f => onstopSettled k (identifySpeaker f) s
  | .tick _ => tick s
  | .frame dataArray => animationFrame dataArray s

/-- One transition: defined when the event can occur. -/
def step (s : RecordSys) (e : RecordEvent) : Option RecordSys :=
  if enabled s e then some (handle s e) else none

/-- A sequence of transitions from `s`. -/
def run (s : RecordSys) : List RecordEvent → Option RecordSys
  | [] => some s
  | e :: es => (step s e).bind (fun t => run t es)

/-- States a mounted `RecordPage` can be in. -/
inductive Reachable : RecordSys → Prop where
  | init : Reachable initSys
  | step {s t : RecordSys} (e : RecordEvent) : Reachable s → step s e = some t → Reachable t

end RecordPage

/-! ## MonitorPage: the enrollment workflow, roster and retrain trigger -/

/-- The characters removed by `String.prototype.trim`: white space and line terminators. -/
def isWhiteSpace (c : Char) : Bool :=
  c.toNat ∈ [0x9, 0xA, 0xB, 0xC, 0xD, 0x20, 0xA0, 0x1680, 0x2000, 0x2001, 0x2002, 0x2003, 0x2004,
    0x2005, 0x2006, 0x2007, 0x2008, 0x2009, 0x200A, 0x2028, 0x2029, 0x202F, 0x205F, 0x3000, 0xFEFF]

/-- The value of `s.trim()`. -/
def trim (s : String) : String :=
  String.mk ((s.data.dropWhile isWhiteSpace).reverse.dropWhile isWhiteSpace).reverse

/-- The value of `!s.trim()`: the trimmed string is empty. -/
def blank (s : String) : Bool :=
  (trim s).data.isEmpty

/-- The values of the `mode` state variable of `MonitorPage`. -/
inductive Mode where
  | view | register
deriving DecidableEq, Repr

/-- One entry of the roster returned by the gateway. -/
structure Speaker where
  name : String
  samples : Nat
deriving DecidableEq, Repr

/-- Component state and refs of `MonitorPage`. -/
structure MonitorPage where
  mode : Mode
  speakerName : String
  currentSample : Nat
  samples : List Blob
  isRecording : Bool
  recordingTime : ℚ
  audioLevel : ℚ
  registeredSpeakers : List Speaker
  isRetraining : Bool
  mediaRecorderRef : Option Nat
  audioContextRef : Option Nat
  analyserRef : Option Nat
  chunksRef : List Chunk
  timerRef : Option Nat
  animationRef : Option Nat
deriving DecidableEq, Repr

/-- One call `registerAudioSample(speakerName, sampleNumber, audioBlob)`. -/
structure RegisterCall where
  speakerName : String
  sampleNumber : Nat
  audioBlob : Blob
deriving DecidableEq, Repr

/-- A call of `submitRegistration` that passed its checks and is uploading: the name and the
samples of the render in which the button was clicked. -/
structure Submission where
  speakerName : String
  samples : List Blob
deriving DecidableEq, Repr

/-- A mounted `MonitorPage` together with the browser and its gateway traffic. -/
structure MonitorSys where
  env : Env
  ui : MonitorPage
  /-- calls of `submitRegistration` whose uploads have not finished -/
  submitting : List Submission
  /-- every `registerAudioSample` call issued, in order -/
  registerCalls : List RegisterCall
  /-- number of `getRegisteredSpeakers` calls not yet settled -/
  loading : Nat
  /-- number of `getRegisteredSpeakers` calls issued -/
  loadCalls : Nat
  /-- number of `retrainModels` calls not yet settled -/
  retraining : Nat
  /-- number of `retrainModels` calls issued -/
  retrainCalls : Nat
deriving DecidableEq, Repr

/-- The settled value of `getRegisteredSpeakers()`: the parsed body whatever `response.ok`
is; the `speakers` field of the body may be missing. -/
def getRegisteredSpeakers (f : Fetched (Option (List Speaker))) :
    Except String (Option (List Speaker)) :=
  match f with
  | .failed => .error "fetch failed"
  | .response _ none => .error "invalid json"
  | .response _ (some data) => .ok data

/-- The settled value of `retrainModels()`. -/
def retrainModels (f : Fetched Unit) : Except String Unit :=
  settle "Retraining failed" f

/-- The loop `for (let i = 0; i < samples.length; i++) await registerAudioSample(speakerName,
i + 1, samples[i])` from index `i` on, over the samples not yet uploaded: the calls issued
and whether the loop ran to its end without a throw.  `gateway i` is the outcome of the fetch
of iteration `i`. -/
def uploadFrom (gateway : Nat → Fetched Unit) (speakerName : String) :
    Nat → List Blob → List RegisterCall × Bool
  | _, [] => ([], true)
  | i, b :: rest =>
    let call : RegisterCall := { speakerName := speakerName, sampleNumber := i + 1, audioBlob := b }
    match registerAudioSample (gateway i) with
    | .ok _ =>
      let r := uploadFrom gateway speakerName (i + 1) rest
      (call :: r.1, r.2)
    | .error _ => ([call], false)

namespace MonitorPage

/-- The function `loadSpeakers` up to its `await`: the roster is requested. -/
def loadSpeakers (s : MonitorSys) : MonitorSys :=
  { s with loading := s.loading + 1, loadCalls := s.loadCalls + 1 }

/-- The part of `loadSpeakers` after `getRegisteredSpeakers` settled:
`setRegisteredSpeakers(data.speakers || [])`, or the `catch` branch. -/
def loadSpeakersSettled (outcome : Except String (Option (List Speaker))) (s : MonitorSys) :
    MonitorSys :=
  match outcome with
  | .ok data =>
    { s with ui := { s.ui with registeredSpeakers := data.getD [] }, loading := s.loading - 1 }
  | .error _ => { s with loading := s.loading - 1 }

/-- State of a freshly mounted `MonitorPage`. -/
def init : MonitorPage :=
  { mode := .view, speakerName := "", currentSample := 1, samples := [], isRecording := false,
    recordingTime := 0, audioLevel := 0, registeredSpeakers := [], isRetraining := false,
    mediaRecorderRef := none, audioContextRef := none, analyserRef := none, chunksRef := [],
    timerRef := none, animationRef := none }

/-- Mounting `MonitorPage` in browser `env`: fresh state, and the effect hook calls
`loadSpeakers`. -/
def mount (env : Env) : MonitorSys :=
  loadSpeakers
    { env := env, ui := init, submitting := [], registerCalls := [], loading := 0,
      loadCalls := 0, retraining := 0, retrainCalls := 0 }

/-- A freshly mounted `MonitorPage` in a browser that holds nothing. -/
def initSys : MonitorSys := mount Env.empty

/-- The click handler of the first mode button: `setMode('view')`. -/
def clickView (s : MonitorSys) : MonitorSys :=
  { s with ui := { s.ui with mode := .view } }

/-- The click handler of the second mode button: register mode with an empty draft. -/
def clickRegister (s : MonitorSys) : MonitorSys :=
  { s with ui := { s.ui with mode := .register, speakerName := "", samples := [], currentSample := 1 } }

/-- The change handler of the name input: `setSpeakerName(e.target.value)`. -/
def changeName (value : String) (s : MonitorSys) : MonitorSys :=
  { s with ui := { s.ui with speakerName := value } }

/-- The part of `startRecording` up to its `await`: the device is requested. -/
def startRecording (s : MonitorSys) : MonitorSys :=
  { s with env := s.env.getUserMedia }

/-- The `catch` branch of `startRecording` when the device request is rejected: an alert. -/
def startRecordingRejected (s : MonitorSys) : MonitorSys :=
  { s with env := s.env.rejectUserMedia }

/-- The part of `startRecording` after `getUserMedia` resolved.  `dataArray` is what the first
synchronous call of `updateLevel` reads.  When `reduce` throws there, the `catch` branch runs
and neither the frame request nor the interval is made. -/
def startRecordingResolved (dataArray : List Nat) (s : MonitorSys) : MonitorSys :=
  let k := s.env.nextId
  let env := ((s.env.resolveUserMedia).newAudioContext k).startRecorder k
  let ui := { s.ui with
    mediaRecorderRef := some k, chunksRef := [], audioContextRef := some k,
    analyserRef := some k, isRecording := true, recordingTime := 0 }
  match updateLevel dataArray with
  | some level =>
    { s with
      env := (env.requestAnimationFrame k).setInterval k,
      ui := { ui with audioLevel := level, animationRef := some k, timerRef := some k } }
  | none => { s with env := env, ui := ui }

/-- The handler `ondataavailable`: a non-empty chunk is pushed to `chunksRef.current`. -/
def ondataavailable (k size : Nat) (s : MonitorSys) : MonitorSys :=
  if size > 0 then
    { s with ui := { s.ui with chunksRef := s.ui.chunksRef ++ [{ session := k, size := size }] } }
  else s

/-- One animation frame: every pending `updateLevel` callback runs in request order, sets the
level, requests its next frame and stores that request in `animationRef`.  When `reduce`
throws, no callback requests a next frame. -/
def animationFrame (dataArray : List Nat) (s : MonitorSys) : MonitorSys :=
  match s.env.frames.getLast?, updateLevel dataArray with
  | some k, some level => { s with ui := { s.ui with audioLevel := level, animationRef := some k } }
  | some _, none => { s with env := { s.env with frames := [] } }
  | none, _ => s

/-- One firing of the interval callback: `setRecordingTime(prev => prev + 0.1)`. -/
def tick (s : MonitorSys) : MonitorSys :=
  { s with ui := { s.ui with recordingTime := s.ui.recordingTime + 1 / 10 } }

/-- The handler `stopRecording`.  Calling `stop()` on a recorder that is not recording throws,
which ends the handler before anything else is done. -/
def stopRecording (s : MonitorSys) : MonitorSys :=
  match s.ui.mediaRecorderRef, s.ui.isRecording with
  | some r, true =>
    if r ∈ s.env.recording then
      let env := s.env.stopRecorder r
      let env := env.clearInterval s.ui.timerRef
      let env := env.cancelAnimationFrame s.ui.animationRef
      let env := match s.ui.audioContextRef with
        | some c => env.closeAudioContext c
        | none => env
      { s with
        env := env,
        ui := { s.ui with
          isRecording := false,
          currentSample := if s.ui.currentSample < 3 then s.ui.currentSample + 1
            else s.ui.currentSample } }
    else s
  | _, _ => s

/-- The recorder's `onstop` handler of session `k`: the blob is built, the tracks of the
captured stream are stopped and the blob is appended to the samples. -/
def onstop (k : Nat) (s : MonitorSys) : MonitorSys :=
  let audioBlob : Blob := s.ui.chunksRef
  { s with
    env := (((s.env.dispatchStop k).newBlob k audioBlob).stopTracks k),
    ui := { s.ui with samples := s.ui.samples ++ [audioBlob] } }

/-- The part of `submitRegistration` before its loop: the two checks, each ending the call
with an alert; a call that passes them goes on to upload. -/
def submitRegistration (s : MonitorSys) : MonitorSys :=
  if blank s.ui.speakerName then s
  else if s.ui.samples.length ≠ 3 then s
  else
    { s with
      submitting := s.submitting ++ [{ speakerName := s.ui.speakerName, samples := s.ui.samples }] }

/-- The rest of the running `submitRegistration` call number `i`: the upload loop against
`gateway`, then either the reset of the draft, the switch to view mode and `loadSpeakers()`,
or the `catch` branch with its alert. -/
def submitRegistrationSettled (i : Nat) (gateway : Nat → Fetched Unit) (s : MonitorSys) :
    MonitorSys :=
  match s.submitting.get? i with
  | none => s
  | some sub =>
    let r := uploadFrom gateway sub.speakerName 0 sub.samples
    let s1 := { s with
      submitting := s.submitting.eraseIdx i,
      registerCalls := s.registerCalls ++ r.1 }
    if r.2 then
      loadSpeakers
        { s1 with ui := { s1.ui with speakerName := "", samples := [], currentSample := 1, mode := .view } }
    else s1

/-- A whole call of `submitRegistration` with the uploads answered by `gateway`. -/
def submitRegistrationWith (gateway : Nat → Fetched Unit) (s : MonitorSys) : MonitorSys :=
  submitRegistrationSettled s.submitting.length gateway (submitRegistration s)

/-- The handler `handleRetrain` up to its `await`; `confirmed` is the answer to `confirm`. -/
def handleRetrain (confirmed : Bool) (s : MonitorSys) : MonitorSys :=
  if !confirmed then s
  else
    { s with
      ui := { s.ui with isRetraining := true },
      retraining := s.retraining + 1, retrainCalls := s.retrainCalls + 1 }

/-- The part of `handleRetrain` after `retrainModels` settled: an alert either way, then the
`finally` block. -/
def handleRetrainSettled (_outcome : Except String Unit) (s : MonitorSys) : MonitorSys :=
  { s with ui := { s.ui with isRetraining := false }, retraining := s.retraining - 1 }

end MonitorPage

/-- What can happen to a mounted `MonitorPage`: clicks and input on rendered controls and
callbacks from the browser. -/
inductive MonitorEvent where
  | clickView
  | clickRegister
  | typeName (value : String)
  | clickStart
  | clickStop
  | clickSubmit
  | clickRefresh
  | clickRetrain (confirmed : Bool)
  | granted (dataArray : List Nat)
  | rejected
  | dataavailable (k size : Nat)
  | stopped (k : Nat)
  | tick (k : Nat)
  | frame (dataArray : List Nat)
  | uploadsSettled (i : Nat) (gateway : Nat → Fetched Unit)
  | speakersSettled (f : Fetched (Option (List Speaker)))
  | retrainSettled (f : Fetched Unit)

namespace MonitorPage

/-- Whether an event can occur: a control must be rendered and not disabled, a callback must
have been registered or queued. -/
def enabled (s : MonitorSys) : MonitorEvent → Bool
  | .clickView => true
  | .clickRegister => true
  | .typeName _ => s.ui.mode == .register && s.ui.samples.length == 0
  | .clickStart =>
    s.ui.mode == .register && decide (s.ui.samples.length < 3) && !s.ui.isRecording
      && !(blank s.ui.speakerName && s.ui.samples.length == 0)
  | .clickStop => s.ui.mode == .register && s.ui.isRecording
  | .clickSubmit => s.ui.mode == .register && s.ui.samples.length == 3 && !s.ui.isRecording
  | .clickRefresh => s.ui.mode == .view
  | .clickRetrain _ =>
    s.ui.mode == .view && !(s.ui.isRetraining || s.ui.registeredSpeakers.length == 0)
  | .granted dataArray => decide (0 < s.env.requests) && validBins dataArray
  | .rejected => decide (0 < s.env.requests)
  | .dataavailable k _ => decide (k ∈ s.env.recording) || decide (k ∈ s.env.finalizing)
  | .stopped k => decide (k ∈ s.env.finalizing)
  | .tick k => decide (k ∈ s.env.timers)
  | .frame dataArray => !s.env.frames.isEmpty && validBins dataArray
  | .uploadsSettled i _ => decide (i < s.submitting.length)
  | .speakersSettled _ => decide (0 < s.loading)
  | .retrainSettled _ => decide (0 < s.retraining)

/-- The handler run by an event. -/
def handle (s : MonitorSys) : MonitorEvent → MonitorSys
  | .clickView => clickView s
  | .clickRegister => clickRegister s
  | .typeName value => changeName value s
  | .clickStart => startRecording s
  | .clickStop => stopRecording s
  | .clickSubmit => submitRegistration s
  | .clickRefresh => loadSpeakers s
  | .clickRetrain confirmed => handleRetrain confirmed s
  | .granted dataArray => startRecordingResolved dataArray s
  | .rejected => startRecordingRejected s
  | .dataavailable k size => ondataavailable k size s
  | .stopped k => onstop k s
  | .tick _ => tick s
  | .frame dataArray => animationFrame dataArray s
  | .uploadsSettled i gateway => submitRegistrationSettled i gateway s
  | .speakersSettled f => loadSpeakersSettled (getRegisteredSpeakers f) s
  | .retrainSettled f => handleRetrainSettled (retrainModels f) s

/-- One transition: defined when the event can occur. -/
def step (s : MonitorSys) (e : MonitorEvent) : Option MonitorSys :=
  if enabled s e then some (handle s e) else none

/-- A sequence of transitions from `s`. -/
def run (s : MonitorSys) : List MonitorEvent → Option MonitorSys
  | [] => some s
  | e :: es => (step s e).bind (fun t => run t es)

/-- States a mounted `MonitorPage` can be in. -/
inductive Reachable : MonitorSys → Prop where
  | init : Reachable initSys
  | step {s t : MonitorSys} (e : MonitorEvent) : Reachable s → step s e = some t → Reachable t

/-- Whether an event may reset the draft: entering register mode and the end of a
submission. -/
def resetsDraft : MonitorEvent → Bool
  | .clickRegister => true
  | .uploadsSettled _ _ => true
  | _ => false

/-- Whether an event can change the samples or the sample index: a reset of the draft, a
click on the stop button, the completion event of a recorder. -/
def touchesDraft : MonitorEvent → Bool
  | .clickRegister => true
  | .uploadsSettled _ _ => true
  | .clickStop => true
  | .stopped _ => true
  | _ => false

/-- States reached by runs in which the draft is reset only while no recorder completion is
pending. -/
inductive ReachableQuiet : MonitorSys → Prop where
  | init : ReachableQuiet initSys
  | step {s t : MonitorSys} (e : MonitorEvent) : ReachableQuiet s → step s e = some t →
      (resetsDraft e = true → s.env.finalizing = []) → ReachableQuiet t

end MonitorPage

/-! ## App: the page switch -/

/-- The values of the `currentPage` state variable of `App`. -/
inductive PageName where
  | record | monitor
deriving DecidableEq, Repr

/-- The application: the page that is mounted, with the browser it runs in. -/
inductive App where
  | record (s : RecordSys)
  | monitor (s : MonitorSys)

namespace App

/-- The application after its first render: `currentPage` is `'record'`. -/
def init : App := .record RecordPage.initSys

/-- The browser the application runs in. -/
def env : App → Env
  | .record s => s.env
  | .monitor s => s.env

/-- The handler `onNavigate = setCurrentPage`: setting the current value changes nothing;
otherwise the mounted page is unmounted, which runs no code of the page because neither page
registers a cleanup, and the other page is mounted with fresh state. -/
def navigate (a : App) (target : PageName) : App :=
  match a, target with
  | .record s, .monitor => .monitor (MonitorPage.mount s.env)
  | .monitor s, .record => .record { env := s.env, ui := RecordPage.init, identifying := [] }
  | .record s, .record => .record s
  | .monitor s, .monitor => .monitor s

end App

/-! ## Session predicates and the capture invariant -/

namespace Env

/-- All four resources of session `k` are live: device track, analysis context,
elapsed-time interval and sampling loop. -/
def Live (e : Env) (k : Nat) : Prop :=
  k ∈ e.tracks ∧ k ∈ e.contexts ∧ k ∈ e.timers ∧ k ∈ e.frames

/-- All four resources of session `k` are released. -/
def Released (e : Env) (k : Nat) : Prop :=
  k ∉ e.tracks ∧ k ∉ e.contexts ∧ k ∉ e.timers ∧ k ∉ e.frames

/-- Session `k` was stopped and its completion event is pending: the interval, the loop and
the context are released, the device track is still live, no blob exists yet. -/
def Stopping (e : Env) (k : Nat) : Prop :=
  k < e.nextId ∧ e.finalizing.count k = 1 ∧ k ∉ e.recording ∧ k ∈ e.tracks ∧
    k ∉ e.contexts ∧ k ∉ e.timers ∧ k ∉ e.frames ∧ e.emittedCount k = 0

/-- Session `k` is over: the recorder is inactive with no event pending, all four resources
are released and exactly one blob was emitted for it. -/
def Done (e : Env) (k : Nat) : Prop :=
  k < e.nextId ∧ k ∉ e.recording ∧ k ∉ e.finalizing ∧ e.Released k ∧ e.emittedCount k = 1

end Env

/-- The invariant that ties the refs of a page to the browser: while `isRecording` holds, all
refs name the session started last and that session is live; ids in use are below
`nextId`; a recorder is never both recording and finalizing; a session whose completion is
pending is in the `Stopping` state. -/
structure CaptureInv (e : Env) (isRecording : Bool)
    (mediaRecorderRef timerRef animationRef audioContextRef : Option Nat) : Prop where
  current : isRecording = true → ∃ k, mediaRecorderRef = some k ∧ timerRef = some k ∧
    animationRef = some k ∧ audioContextRef = some k ∧ k ∈ e.recording ∧ e.Live k ∧
    e.frames.getLast? = some k
  recording : ∀ k ∈ e.recording, k < e.nextId ∧ k ∉ e.finalizing ∧ k ∈ e.tracks ∧
    e.emittedCount k = 0
  finalizing : ∀ k ∈ e.finalizing, e.Stopping k
  emitted : ∀ p ∈ e.emitted, p.1 < e.nextId

/-- The part of a page that makes up its capture sessions: the browser, the recording flag
and the refs to recorder, interval, frame request and audio context. -/
structure Capture where
  env : Env
  isRecording : Bool
  mediaRecorderRef : Option Nat
  timerRef : Option Nat
  animationRef : Option Nat
  audioContextRef : Option Nat

/-- The capture invariant on the capture part of a page. -/
def Capture.Inv (c : Capture) : Prop :=
  CaptureInv c.env c.isRecording c.mediaRecorderRef c.timerRef c.animationRef c.audioContextRef

/-- The capture part of a mounted `RecordPage`. -/
def RecordPage.capture (s : RecordSys) : Capture :=
  { env := s.env, isRecording := s.ui.isRecording, mediaRecorderRef := s.ui.mediaRecorderRef,
    timerRef := s.ui.timerRef, animationRef := s.ui.animationRef,
    audioContextRef := s.ui.audioContextRef }

/-- The capture part of a mounted `MonitorPage`. -/
def MonitorPage.capture (s : MonitorSys) : Capture :=
  { env := s.env, isRecording := s.ui.isRecording, mediaRecorderRef := s.ui.mediaRecorderRef,
    timerRef := s.ui.timerRef, animationRef := s.ui.animationRef,
    audioContextRef := s.ui.audioContextRef }

/-- The session whose completion handler an event of `RecordPage` runs. -/
def RecordEvent.completes : RecordEvent → Option Nat
  | .stopped k => some k
  | _ => none

/-- The session whose completion handler an event of `MonitorPage` runs. -/
def MonitorEvent.completes : MonitorEvent → Option Nat
  | .stopped k => some k
  | _ => none

namespace Env

/-- The browser after the synchronous body of `startRecording` that follows the `await`:
stream, context, started recorder, first frame request and interval of session `e.nextId`. -/
def acquired (e : Env) : Env :=
  ((((e.resolveUserMedia).newAudioContext e.nextId).startRecorder e.nextId).requestAnimationFrame
    e.nextId).setInterval e.nextId

/-- The browser after the body of `stopRecording` for recorder `r` and the given refs. -/
def halted (e : Env) (r : Nat) (timerRef animationRef audioContextRef : Option Nat) : Env :=
  match audioContextRef with
  | some c => (((e.stopRecorder r).clearInterval timerRef).cancelAnimationFrame
      animationRef).closeAudioContext c
  | none => ((e.stopRecorder r).clearInterval timerRef).cancelAnimationFrame animationRef

/-- The browser after the completion handler of session `k` built blob `b` and stopped the
tracks. -/
def completed (e : Env) (k : Nat) (b : Blob) : Env :=
  ((e.dispatchStop k).newBlob k b).stopTracks k

end Env

/-- What one transition of either page does to its capture part; the label is the session
whose completion handler ran, if any. -/
inductive CaptureStep : Capture → Option Nat → Capture → Prop where
  | idle (c : Capture) (n : Nat) :
      CaptureStep c none { c with env := { c.env with requests := n } }
  | acquire (c : Capture) :
      CaptureStep c none
        { env := c.env.acquired, isRecording := true, mediaRecorderRef := some c.env.nextId,
          timerRef := some c.env.nextId, animationRef := some c.env.nextId,
          audioContextRef := some c.env.nextId }
  | halt (c : Capture) (r : Nat) : c.mediaRecorderRef = some r → c.isRecording = true →
      r ∈ c.env.recording →
      CaptureStep c none
        { c with
          env := c.env.halted r c.timerRef c.animationRef c.audioContextRef,
          isRecording := false }
  | complete (c : Capture) (k : Nat) (b : Blob) : k ∈ c.env.finalizing →
      CaptureStep c (some k) { c with env := c.env.completed k b }
  | frame (c : Capture) (j : Nat) : c.env.frames.getLast? = some j →
      CaptureStep c none { c with animationRef := some j }

/-- A silent buffer: 128 bins of magnitude 0. -/
def silence : List Nat := List.replicate 128 0

/-! ## Example states -/

/-- The identification page while its first session is recording. -/
def RecordPage.recordingSys : RecordSys :=
  RecordPage.handle (RecordPage.handle RecordPage.initSys .clickStart) (.granted silence)

/-- The enrollment page in register mode with name "Alice" while its first session is
recording. -/
def MonitorPage.recordingSys : MonitorSys :=
  MonitorPage.handle
    (MonitorPage.handle
      (MonitorPage.handle (MonitorPage.handle MonitorPage.initSys .clickRegister)
        (.typeName "Alice"))
      .clickStart)
    (.granted silence)

/-- The enrollment page holding a complete draft: name "Alice" and three samples. -/
def MonitorPage.aliceDraft : MonitorSys :=
  { MonitorPage.initSys with
    ui := { MonitorPage.init with
      mode := .register, speakerName := "Alice", currentSample := 3,
      samples := [[{ session := 0, size := 1 }], [{ session := 1, size := 1 }],
        [{ session := 2, size := 1 }]] } }

/-- A gateway that accepts every upload. -/
def acceptAll : Nat → Fetched Unit :=
  fun _ => .response true (some ())

/-- The enrollment page after its first session was stopped and completed. -/
def MonitorPage.firstSampleSys : MonitorSys :=
  MonitorPage.onstop 0 (MonitorPage.stopRecording MonitorPage.recordingSys)

/-- A roster with one enrolled speaker, as the body of the roster response. -/
def rosterOfAnn : Fetched (Option (List Speaker)) :=
  .response true (some (some [{ name := "ann", samples := 3 }]))

/-- The monitor page with the roster of one speaker loaded and a confirmed retrain call
unsettled. -/
def MonitorPage.retrainingSys : MonitorSys :=
  MonitorPage.handle (MonitorPage.handle MonitorPage.initSys (.speakersSettled rosterOfAnn))
    (.clickRetrain true)

/-- A gateway that accepts every upload except the one of iteration 1, the second sample. -/
def rejectSecond : Nat → Fetched Unit :=
  fun i => if i = 1 then .response false none else .response true (some ())

/-! ## Binary64 arithmetic -/

/-- The integer nearest to `q`, the even one of two. -/
def roundHalfEven (q : ℚ) : ℤ :=
  if q - ⌊q⌋ < 1 / 2 then ⌊q⌋
  else if 1 / 2 < q - ⌊q⌋ then ⌊q⌋ + 1
  else if ⌊q⌋ % 2 = 0 then ⌊q⌋ else ⌊q⌋ + 1

/-- The exponent `e` with `2 ^ e ≤ |x| < 2 ^ (e + 1)` for `x ≠ 0`, found from the binary
lengths of numerator and denominator. -/
def binaryExponent (x : ℚ) : ℤ :=
  if (2 : ℚ) ^ ((Nat.log2 x.num.natAbs : ℤ) - (Nat.log2 x.den : ℤ)) ≤ |x| then
    (Nat.log2 x.num.natAbs : ℤ) - (Nat.log2 x.den : ℤ)
  else (Nat.log2 x.num.natAbs : ℤ) - (Nat.log2 x.den : ℤ) - 1

/-- The spacing of binary64 numbers at `x`: 53 significant bits, and the spacing of the
subnormal numbers below `2 ^ (-1022)`. -/
def ulp (x : ℚ) : ℚ :=
  (2 : ℚ) ^ (max (binaryExponent x) (-1022) - 52)

/-- The binary64 number nearest to `x`, ties to the even significand, for `|x| < 2 ^ 1024`. -/
def roundDouble (x : ℚ) : ℚ :=
  if x = 0 then 0 else (roundHalfEven (x / ulp x) : ℚ) * ulp x

/-- The value of `a * b` for binary64 numbers `a` and `b`: the exact product, rounded. -/
def mulDouble (a b : ℚ) : ℚ :=
  roundDouble (a * b)

/-! ## Display of the confidence -/

/-- The integer `n` chosen by `x.toFixed(1)` for `x ≥ 0`: the one for which `n / 10 - x` is
closest to zero, the larger one of two. -/
def tenths (x : ℚ) : Nat :=
  Int.toNat ⌊10 * x + 1 / 2⌋

/-- The value of `x.toFixed(1)` for `|x| < 10^21`: sign, integer part, point, one digit. -/
def toFixed1 (x : ℚ) : String :=
  if x < 0 then "-" ++ toString (tenths (-x) / 10) ++ "." ++ toString (tenths (-x) % 10)
  else toString (tenths x / 10) ++ "." ++ toString (tenths x % 10)

/-- The text of the confidence row in the success view and in the denied view:
`(result.confidence * 100).toFixed(1)` followed by `%`, the product taken in binary64; no
row without a result. -/
def RecordPage.displayedText (p : RecordPage) : Option String :=
  (RecordPage.displayedConfidence p).map (fun c => toFixed1 (mulDouble c 100) ++ "%")

/-- A result whose confidence is the binary64 number written `0.92`. -/
def resultHigh : IdentificationResult :=
  { identified_speaker := "ann", confidence := roundDouble (23 / 25), model_used := "ensemble" }

/-- A result whose confidence is the binary64 number written `0.55`. -/
def resultLow : IdentificationResult :=
  { identified_speaker := "ann", confidence := roundDouble (11 / 20), model_used := "ensemble" }

/-- A result whose confidence is the binary64 number written `0.8135`. -/
def resultTie : IdentificationResult :=
  { identified_speaker := "ann", confidence := roundDouble (1627 / 2000),
    model_used := "ensemble" }

/-- The identification page showing the success view for `resultHigh`. -/
def RecordPage.acceptedPage : RecordPage :=
  { RecordPage.init with status := .success, result := some resultHigh }

/-- The identification page showing the denied view for `resultLow`. -/
def RecordPage.deniedPage : RecordPage :=
  { RecordPage.init with status := .denied, result := some resultLow }

/-- The identification page showing the success view for `resultTie`. -/
def RecordPage.tiePage : RecordPage :=
  { RecordPage.init with status := .success, result := some resultTie }

/-! ## Retrain calls across page switches -/

/-- The value of `currentPage` for a mounted page. -/
def App.page : App → PageName
  | .record _ => .record
  | .monitor _ => .monitor

/-- The `retrainModels` calls issued by the mounted page that have not settled. -/
def App.retraining : App → Nat
  | .record _ => 0
  | .monitor s => s.retraining

/-- The application together with the number of unsettled `retrainModels` calls that were
issued by pages unmounted since. -/
structure Site where
  app : App
  orphanRetrains : Nat

namespace Site

/-- The site after the first render. -/
def init : Site :=
  { app := App.init, orphanRetrains := 0 }

/-- The handler `onNavigate` on the site: a page switch unmounts the page, and the
`retrainModels` calls it was awaiting stay unsettled. -/
def navigate (w : Site) (target : PageName) : Site :=
  { app := w.app.navigate target,
    orphanRetrains :=
      if w.app.page = target then w.orphanRetrains else w.orphanRetrains + w.app.retraining }

/-- Events of the mounted `MonitorPage`, in order; `none` when another page is mounted or an
event cannot occur. -/
def monitorRun (w : Site) (es : List MonitorEvent) : Option Site :=
  match w.app with
  | .monitor s => (MonitorPage.run s es).map (fun t => { w with app := .monitor t })
  | .record _ => none

/-- All `retrainModels` calls that have not settled. -/
def outstandingRetrains (w : Site) : Nat :=
  w.orphanRetrains + w.app.retraining

end Site

/-! ## Basic facts -/

theorem validBins_length {d : List Nat} (h : validBins d = true) : d.length = 128 := by
  simp [validBins, frequencyBinCount, fftSize] at h
  exact h.1

theorem updateLevel_isSome {d : List Nat} (h : validBins d = true) :
    ∃ level, updateLevel d = some level := by
  have hl := validBins_length h
  cases d with
  | nil => simp at hl
  | cons a rest => exact ⟨_, rfl⟩

/-! ## Identification workflow: threshold and gateway failure -/

/-- C1: after the completion handler has processed a result `r` of the identify operation,
the status is `success` exactly when `r.confidence > 0.8` and `denied` otherwise; confidence
0.8 gives `denied`, 0.92 gives `success`, 0.55 gives `denied`. -/
theorem C1_status_by_threshold (s : RecordSys) (k : Nat) (r : IdentificationResult)
    (speaker model : String) :
    (RecordPage.handle s (.identified k (.response true (some r)))).ui.status
        = (if r.confidence > 4 / 5 then Status.success else Status.denied)
    ∧ ((RecordPage.onstopSettled k (.ok r) s).ui.status = .success ↔ r.confidence > 4 / 5)
    ∧ ((RecordPage.onstopSettled k (.ok r) s).ui.status = .denied ↔ ¬ r.confidence > 4 / 5)
    ∧ (RecordPage.onstopSettled k
        (.ok { identified_speaker := speaker, confidence := 4 / 5, model_used := model }) s).ui.status
        = .denied
    ∧ (RecordPage.onstopSettled k
        (.ok { identified_speaker := speaker, confidence := 23 / 25, model_used := model }) s).ui.status
        = .success
    ∧ (RecordPage.onstopSettled k
        (.ok { identified_speaker := speaker, confidence := 11 / 20, model_used := model }) s).ui.status
        = .denied := by
  refine ⟨rfl, ?_, ?_, ?_, ?_, ?_⟩
  · by_cases h : r.confidence > 4 / 5 <;> simp [RecordPage.onstopSettled, h]
  · by_cases h : r.confidence > 4 / 5 <;> simp [RecordPage.onstopSettled, h]
  · simp [RecordPage.onstopSettled]
  · simp [RecordPage.onstopSettled]; norm_num
  · simp [RecordPage.onstopSettled]; norm_num

set_option maxRecDepth 100000 in
/-- C2 (failing run): two clicks on the start button while the device request is pending;
the first grant is recorded, stopped and identified with confidence 0.9; the second grant
arrives afterwards and puts the page back into recording with the old result still stored;
that recording is stopped and its identify call fails: the status is `denied`, the stored
result is the old one and its confidence is displayed. -/
theorem C2_stale_result_after_failure :
    (RecordPage.run RecordPage.initSys
      [.clickStart, .clickStart, .granted silence, .clickStop, .stopped 0,
        .identified 0 (.response true (some
          { identified_speaker := "ann", confidence := 9 / 10, model_used := "ensemble" })),
        .granted silence, .clickStop, .stopped 1, .identified 1 .failed]).map
      (fun s => (s.ui.status, s.ui.result.map (fun r => r.confidence),
        RecordPage.displayedConfidence s.ui))
      = some (.denied, some (9 / 10), some (9 / 10)) := by
  rfl

/-! ## Stopping when nothing is recording -/

theorem RecordPage.stopRecording_of_not_recording_rec (s : RecordSys)
    (h : s.ui.mediaRecorderRef = none ∨ s.ui.isRecording = false) :
    RecordPage.stopRecording s = s := by
  unfold RecordPage.stopRecording
  rcases h with h | h
  · rw [h]
  · rw [h]
    cases s.ui.mediaRecorderRef <;> rfl

theorem MonitorPage.stopRecording_of_not_recording_mon (s : MonitorSys)
    (h : s.ui.mediaRecorderRef = none ∨ s.ui.isRecording = false) :
    MonitorPage.stopRecording s = s := by
  unfold MonitorPage.stopRecording
  rcases h with h | h
  · rw [h]
  · rw [h]
    cases s.ui.mediaRecorderRef <;> rfl

theorem RecordPage.stopRecording_after_stop_rec (t : RecordSys) (k : Nat) :
    RecordPage.stopRecording (RecordPage.stopRecording t) = RecordPage.stopRecording t
    ∧ RecordPage.stopRecording (RecordPage.onstop k (RecordPage.stopRecording t))
        = RecordPage.onstop k (RecordPage.stopRecording t) := by
  rcases h1 : t.ui.mediaRecorderRef with _ | r
  · have h : RecordPage.stopRecording t = t :=
      RecordPage.stopRecording_of_not_recording_rec t (Or.inl h1)
    rw [h]
    exact ⟨h, RecordPage.stopRecording_of_not_recording_rec _ (Or.inl h1)⟩
  · rcases h2 : t.ui.isRecording with _ | _
    · have h : RecordPage.stopRecording t = t :=
        RecordPage.stopRecording_of_not_recording_rec t (Or.inr h2)
      rw [h]
      exact ⟨h, RecordPage.stopRecording_of_not_recording_rec _ (Or.inr h2)⟩
    · by_cases h3 : r ∈ t.env.recording
      · have hf : (RecordPage.stopRecording t).ui.isRecording = false := by
          simp [RecordPage.stopRecording, h1, h2, h3]
        exact ⟨RecordPage.stopRecording_of_not_recording_rec _ (Or.inr hf),
          RecordPage.stopRecording_of_not_recording_rec _ (Or.inr hf)⟩
      · have h : RecordPage.stopRecording t = t := by
          simp [RecordPage.stopRecording, h1, h2, h3]
        rw [h]
        refine ⟨h, ?_⟩
        simp [RecordPage.stopRecording, RecordPage.onstop, Env.dispatchStop, Env.newBlob,
          Env.stopTracks, h1, h2, h3]

theorem MonitorPage.stopRecording_after_stop_mon (t : MonitorSys) (k : Nat) :
    MonitorPage.stopRecording (MonitorPage.stopRecording t) = MonitorPage.stopRecording t
    ∧ MonitorPage.stopRecording (MonitorPage.onstop k (MonitorPage.stopRecording t))
        = MonitorPage.onstop k (MonitorPage.stopRecording t) := by
  rcases h1 : t.ui.mediaRecorderRef with _ | r
  · have h : MonitorPage.stopRecording t = t :=
      MonitorPage.stopRecording_of_not_recording_mon t (Or.inl h1)
    rw [h]
    exact ⟨h, MonitorPage.stopRecording_of_not_recording_mon _ (Or.inl h1)⟩
  · rcases h2 : t.ui.isRecording with _ | _
    · have h : MonitorPage.stopRecording t = t :=
        MonitorPage.stopRecording_of_not_recording_mon t (Or.inr h2)
      rw [h]
      exact ⟨h, MonitorPage.stopRecording_of_not_recording_mon _ (Or.inr h2)⟩
    · by_cases h3 : r ∈ t.env.recording
      · have hf : (MonitorPage.stopRecording t).ui.isRecording = false := by
          simp [MonitorPage.stopRecording, h1, h2, h3]
        exact ⟨MonitorPage.stopRecording_of_not_recording_mon _ (Or.inr hf),
          MonitorPage.stopRecording_of_not_recording_mon _ (Or.inr hf)⟩
      · have h : MonitorPage.stopRecording t = t := by
          simp [MonitorPage.stopRecording, h1, h2, h3]
        rw [h]
        refine ⟨h, ?_⟩
        simp [MonitorPage.stopRecording, MonitorPage.onstop, Env.dispatchStop, Env.newBlob,
          Env.stopTracks, h1, h2, h3]

/-- C6: in a state in which no capture session is recording (no recorder, or `isRecording`
false) `stopRecording` changes nothing, on both pages; hence a second stop, directly after
the first or after the first one's completion handler has run, changes nothing: no further
blob, no further advance of `currentSample`. -/
theorem C6_stop_is_noop_when_not_recording (s : RecordSys) (m : MonitorSys)
    (hs : s.ui.mediaRecorderRef = none ∨ s.ui.isRecording = false)
    (hm : m.ui.mediaRecorderRef = none ∨ m.ui.isRecording = false) :
    RecordPage.stopRecording s = s ∧ MonitorPage.stopRecording m = m
    ∧ (∀ (t : RecordSys) (k : Nat),
        RecordPage.stopRecording (RecordPage.stopRecording t) = RecordPage.stopRecording t
        ∧ RecordPage.stopRecording (RecordPage.onstop k (RecordPage.stopRecording t))
            = RecordPage.onstop k (RecordPage.stopRecording t))
    ∧ (∀ (t : MonitorSys) (k : Nat),
        MonitorPage.stopRecording (MonitorPage.stopRecording t) = MonitorPage.stopRecording t
        ∧ MonitorPage.stopRecording (MonitorPage.onstop k (MonitorPage.stopRecording t))
            = MonitorPage.onstop k (MonitorPage.stopRecording t)) :=
  ⟨RecordPage.stopRecording_of_not_recording_rec s hs,
    MonitorPage.stopRecording_of_not_recording_mon m hm,
    RecordPage.stopRecording_after_stop_rec, MonitorPage.stopRecording_after_stop_mon⟩

/-- C6 at the freshly mounted pages, where no recorder exists. -/
theorem C6_witness :
    RecordPage.stopRecording RecordPage.initSys = RecordPage.initSys
    ∧ MonitorPage.stopRecording MonitorPage.initSys = MonitorPage.initSys :=
  ⟨(C6_stop_is_noop_when_not_recording RecordPage.initSys MonitorPage.initSys
      (Or.inl rfl) (Or.inl rfl)).1,
    (C6_stop_is_noop_when_not_recording RecordPage.initSys MonitorPage.initSys
      (Or.inl rfl) (Or.inl rfl)).2.1⟩

/-! ## Submission: validation and upload order -/

theorem MonitorPage.submitRegistrationWith_invalid (gateway : Nat → Fetched Unit)
    (s : MonitorSys) (h : ¬ (s.ui.samples.length = 3 ∧ blank s.ui.speakerName = false)) :
    MonitorPage.submitRegistrationWith gateway s = s := by
  have h1 : MonitorPage.submitRegistration s = s := by
    unfold MonitorPage.submitRegistration
    by_cases hb : blank s.ui.speakerName = true
    · simp [hb]
    · have hb2 : blank s.ui.speakerName = false := by simpa using hb
      have hl : s.ui.samples.length ≠ 3 := fun hl => h ⟨hl, hb2⟩
      simp [hb2, hl]
  unfold MonitorPage.submitRegistrationWith
  rw [h1]
  unfold MonitorPage.submitRegistrationSettled
  simp

theorem MonitorPage.submitRegistrationWith_valid (gateway : Nat → Fetched Unit)
    (s : MonitorSys) (hl : s.ui.samples.length = 3) (hb : blank s.ui.speakerName = false) :
    (MonitorPage.submitRegistrationWith gateway s).registerCalls
      = s.registerCalls ++ (uploadFrom gateway s.ui.speakerName 0 s.ui.samples).1 := by
  have h1 : MonitorPage.submitRegistration s = { s with
      submitting := s.submitting ++ [{ speakerName := s.ui.speakerName, samples := s.ui.samples }] } := by
    unfold MonitorPage.submitRegistration
    simp [hb, hl]
  unfold MonitorPage.submitRegistrationWith
  rw [h1]
  unfold MonitorPage.submitRegistrationSettled
  simp only [List.get?_eq_getElem?, List.getElem?_concat_length]
  split_ifs <;> simp [MonitorPage.loadSpeakers]

theorem uploadFrom_ne_nil (gateway : Nat → Fetched Unit) (name : String) (i : Nat)
    (b : Blob) (rest : List Blob) : (uploadFrom gateway name i (b :: rest)).1 ≠ [] := by
  unfold uploadFrom
  cases registerAudioSample (gateway i) <;> simp

/-- C9: `submitRegistration` issues a `registerAudioSample` request exactly when the draft has
three samples and a name that is non-empty after trimming; for every other draft it issues
no call and leaves the whole state, in particular name, samples, `currentSample` and mode,
unchanged. -/
theorem C9_submission_gate (gateway : Nat → Fetched Unit) (s : MonitorSys) :
    ((MonitorPage.submitRegistrationWith gateway s).registerCalls ≠ s.registerCalls
        ↔ (s.ui.samples.length = 3 ∧ blank s.ui.speakerName = false))
    ∧ (¬ (s.ui.samples.length = 3 ∧ blank s.ui.speakerName = false) →
        MonitorPage.submitRegistrationWith gateway s = s
        ∧ MonitorPage.submitRegistration s = s) := by
  constructor
  · constructor
    · intro hne
      by_contra hv
      exact hne (by rw [MonitorPage.submitRegistrationWith_invalid gateway s hv])
    · rintro ⟨hl, hb⟩
      rw [MonitorPage.submitRegistrationWith_valid gateway s hl hb]
      intro heq
      have hnil : (uploadFrom gateway s.ui.speakerName 0 s.ui.samples).1 = [] := by
        simpa using heq
      cases hs : s.ui.samples with
      | nil => simp [hs] at hl
      | cons b rest =>
        rw [hs] at hnil
        exact uploadFrom_ne_nil gateway _ 0 b rest hnil
  · intro hv
    refine ⟨MonitorPage.submitRegistrationWith_invalid gateway s hv, ?_⟩
    unfold MonitorPage.submitRegistration
    by_cases hb : blank s.ui.speakerName = true
    · simp [hb]
    · have hb2 : blank s.ui.speakerName = false := by simpa using hb
      have hl : s.ui.samples.length ≠ 3 := fun hl => hv ⟨hl, hb2⟩
      simp [hb2, hl]

/-- C9 at the freshly mounted page, whose draft has no samples and an empty name. -/
theorem C9_witness :
    MonitorPage.submitRegistrationWith (fun _ => Fetched.failed) MonitorPage.initSys
        = MonitorPage.initSys
    ∧ MonitorPage.submitRegistration MonitorPage.initSys = MonitorPage.initSys :=
  (C9_submission_gate (fun _ => Fetched.failed) MonitorPage.initSys).2 (by decide)

/-- C10: for a draft with name `N` (non-empty after trimming) and samples `s1, s2, s3`, the
calls issued by `submitRegistration` are a prefix of `[(N,1,s1), (N,2,s2), (N,3,s3)]`; a
call is followed by another only if it resolved successfully, so the first failing call is
the last one; when no call fails all three are issued, once each, in the order 1, 2, 3. -/
theorem C10_uploads_in_order (gateway : Nat → Fetched Unit) (s : MonitorSys)
    (s1 s2 s3 : Blob) (hname : blank s.ui.speakerName = false)
    (hsamples : s.ui.samples = [s1, s2, s3]) :
    ∃ calls : List RegisterCall,
      (MonitorPage.submitRegistrationWith gateway s).registerCalls = s.registerCalls ++ calls
      ∧ calls <+: [{ speakerName := s.ui.speakerName, sampleNumber := 1, audioBlob := s1 },
          { speakerName := s.ui.speakerName, sampleNumber := 2, audioBlob := s2 },
          { speakerName := s.ui.speakerName, sampleNumber := 3, audioBlob := s3 }]
      ∧ (∀ j, j + 1 < calls.length → ∃ v, registerAudioSample (gateway j) = .ok v)
      ∧ (∀ j, j < calls.length → (∃ msg, registerAudioSample (gateway j) = .error msg) →
          calls.length = j + 1)
      ∧ ((∀ j, j < 3 → ∃ v, registerAudioSample (gateway j) = .ok v) →
          calls = [{ speakerName := s.ui.speakerName, sampleNumber := 1, audioBlob := s1 },
            { speakerName := s.ui.speakerName, sampleNumber := 2, audioBlob := s2 },
            { speakerName := s.ui.speakerName, sampleNumber := 3, audioBlob := s3 }]) := by
  have hl : s.ui.samples.length = 3 := by rw [hsamples]; rfl
  refine ⟨(uploadFrom gateway s.ui.speakerName 0 s.ui.samples).1,
    MonitorPage.submitRegistrationWith_valid gateway s hl hname, ?_⟩
  rw [hsamples]
  rcases h0 : registerAudioSample (gateway 0) with m0 | v0
  · refine ⟨?_, ?_, ?_, ?_⟩
    · simp [uploadFrom, h0, List.prefix_cons_inj]
    · intro j hj
      simp [uploadFrom, h0] at hj
    · intro j hj _
      simp [uploadFrom, h0] at hj ⊢
      omega
    · intro hall
      obtain ⟨v, hv⟩ := hall 0 (by omega)
      rw [h0] at hv
      cases hv
  · rcases h1 : registerAudioSample (gateway 1) with m1 | v1
    · refine ⟨?_, ?_, ?_, ?_⟩
      · simp [uploadFrom, h0, h1, List.prefix_cons_inj]
      · intro j hj
        simp [uploadFrom, h0, h1] at hj
        have : j = 0 := by omega
        subst this
        exact ⟨v0, h0⟩
      · intro j hj hfail
        simp [uploadFrom, h0, h1] at hj ⊢
        obtain ⟨msg, hmsg⟩ := hfail
        have : j = 0 ∨ j = 1 := by omega
        rcases this with rfl | rfl
        · rw [h0] at hmsg
          cases hmsg
        · rfl
      · intro hall
        obtain ⟨v, hv⟩ := hall 1 (by omega)
        rw [h1] at hv
        cases hv
    · rcases h2 : registerAudioSample (gateway 2) with m2 | v2
      · refine ⟨?_, ?_, ?_, ?_⟩
        · simp [uploadFrom, h0, h1, h2]
        · intro j hj
          simp [uploadFrom, h0, h1, h2] at hj
          have : j = 0 ∨ j = 1 := by omega
          rcases this with rfl | rfl
          · exact ⟨v0, h0⟩
          · exact ⟨v1, h1⟩
        · intro j hj hfail
          simp [uploadFrom, h0, h1, h2] at hj ⊢
          obtain ⟨msg, hmsg⟩ := hfail
          have : j = 0 ∨ j = 1 ∨ j = 2 := by omega
          rcases this with rfl | rfl | rfl
          · rw [h0] at hmsg
            cases hmsg
          · rw [h1] at hmsg
            cases hmsg
          · rfl
        · intro _
          simp [uploadFrom, h0, h1, h2]
      · refine ⟨?_, ?_, ?_, ?_⟩
        · simp [uploadFrom, h0, h1, h2]
        · intro j hj
          simp [uploadFrom, h0, h1, h2] at hj
          have : j = 0 ∨ j = 1 := by omega
          rcases this with rfl | rfl
          · exact ⟨v0, h0⟩
          · exact ⟨v1, h1⟩
        · intro j hj hfail
          simp [uploadFrom, h0, h1, h2] at hj ⊢
          obtain ⟨msg, hmsg⟩ := hfail
          have : j = 0 ∨ j = 1 ∨ j = 2 := by omega
          rcases this with rfl | rfl | rfl
          · rw [h0] at hmsg
            cases hmsg
          · rw [h1] at hmsg
            cases hmsg
          · rfl
        · intro _
          simp [uploadFrom, h0, h1, h2]

/-! ## Sessions in the browser: stability of `Stopping` and `Done` -/

namespace Env

theorem emittedCount_newBlob (e : Env) (j k : Nat) (b : Blob) :
    (e.newBlob j b).emittedCount k = e.emittedCount k + (if j = k then 1 else 0) := by
  unfold emittedCount newBlob
  by_cases h : j = k <;> simp [List.filter_append, List.filter_cons, h]

theorem emittedCount_eq_zero_of_fresh (e : Env) (k : Nat)
    (h : ∀ p ∈ e.emitted, p.1 < k) : e.emittedCount k = 0 := by
  unfold emittedCount
  rw [List.length_eq_zero, List.filter_eq_nil_iff]
  intro p hp hpk
  have h1 := h p hp
  have h2 : p.1 = k := by simpa using hpk
  omega

theorem Stopping.after_acquire {e : Env} {k : Nat} (h : e.Stopping k) : e.acquired.Stopping k := by
  obtain ⟨h1, h2, h3, h4, h5, h6, h7, h8⟩ := h
  have hne : k ≠ e.nextId := by omega
  refine ⟨?_, ?_, ?_, ?_, ?_, ?_, ?_, ?_⟩
  · show k < e.nextId + 1
    omega
  · exact h2
  · show k ∉ e.recording ++ [e.nextId]
    simp [h3, hne]
  · show k ∈ e.tracks ++ [e.nextId]
    simp [h4]
  · show k ∉ e.contexts ++ [e.nextId]
    simp [h5, hne]
  · show k ∉ e.timers ++ [e.nextId]
    simp [h6, hne]
  · show k ∉ e.frames ++ [e.nextId]
    simp [h7, hne]
  · exact h8

theorem halted_fields (e : Env) (r : Nat) (t a c : Option Nat) :
    (e.halted r t a c).nextId = e.nextId
    ∧ (e.halted r t a c).requests = e.requests
    ∧ (e.halted r t a c).tracks = e.tracks
    ∧ (e.halted r t a c).recording = e.recording.filter (fun x => x != r)
    ∧ (e.halted r t a c).finalizing = e.finalizing ++ [r]
    ∧ (e.halted r t a c).emitted = e.emitted
    ∧ (∀ k, k ∉ e.contexts → k ∉ (e.halted r t a c).contexts)
    ∧ (∀ k, k ∉ e.timers → k ∉ (e.halted r t a c).timers)
    ∧ (∀ k, k ∉ e.frames → k ∉ (e.halted r t a c).frames)
    ∧ (∀ k, c = some k → k ∉ (e.halted r t a c).contexts)
    ∧ (∀ k, t = some k → k ∉ (e.halted r t a c).timers)
    ∧ (∀ k, a = some k → k ∉ (e.halted r t a c).frames) := by
  cases c <;> cases t <;> cases a <;>
    simp [halted, stopRecorder, clearInterval, cancelAnimationFrame, closeAudioContext,
      List.mem_filter] <;> tauto

theorem Stopping.after_halt {e : Env} {k r : Nat} (t a c : Option Nat) (h : e.Stopping k)
    (hr : r ∈ e.recording) : (e.halted r t a c).Stopping k := by
  obtain ⟨h1, h2, h3, h4, h5, h6, h7, h8⟩ := h
  obtain ⟨f1, _, f3, f4, f5, f6, f7, f8, f9, _, _, _⟩ := halted_fields e r t a c
  have hne : r ≠ k := fun hrk => h3 (hrk ▸ hr)
  refine ⟨?_, ?_, ?_, ?_, f7 k h5, f8 k h6, f9 k h7, ?_⟩
  · rw [f1]
    exact h1
  · rw [f5, List.count_append, h2]
    simp [List.count_cons, hne]
  · rw [f4]
    simp [List.mem_filter, h3]
  · rw [f3]
    exact h4
  · unfold emittedCount
    rw [f6]
    exact h8

theorem Stopping.completed_other {e : Env} {k j : Nat} (b : Blob) (h : e.Stopping k)
    (hne : j ≠ k) : (e.completed j b).Stopping k := by
  obtain ⟨h1, h2, h3, h4, h5, h6, h7, h8⟩ := h
  refine ⟨h1, ?_, h3, ?_, h5, h6, h7, ?_⟩
  · show (e.finalizing.erase j).count k = 1
    rw [List.count_erase_of_ne (Ne.symm hne)]
    exact h2
  · show k ∈ e.tracks.filter (fun x => x != j)
    simp [List.mem_filter, h4, Ne.symm hne]
  · show ((e.dispatchStop j).newBlob j b).emittedCount k = 0
    rw [emittedCount_newBlob]
    simp [hne]
    exact h8

theorem Stopping.completed_self {e : Env} {k : Nat} (b : Blob) (h : e.Stopping k) :
    (e.completed k b).Done k := by
  obtain ⟨h1, h2, h3, h4, h5, h6, h7, h8⟩ := h
  refine ⟨h1, h3, ?_, ⟨?_, h5, h6, h7⟩, ?_⟩
  · show k ∉ e.finalizing.erase k
    rw [← List.count_eq_zero, List.count_erase_self, h2]
  · show k ∉ e.tracks.filter (fun x => x != k)
    simp [List.mem_filter]
  · show ((e.dispatchStop k).newBlob k b).emittedCount k = 1
    rw [emittedCount_newBlob]
    simp
    exact h8

theorem Done.keep_acquire {e : Env} {k : Nat} (h : e.Done k) : e.acquired.Done k := by
  obtain ⟨h1, h2, h3, ⟨h4, h5, h6, h7⟩, h8⟩ := h
  have hne : k ≠ e.nextId := by omega
  refine ⟨?_, ?_, h3, ⟨?_, ?_, ?_, ?_⟩, h8⟩
  · show k < e.nextId + 1
    omega
  · show k ∉ e.recording ++ [e.nextId]
    simp [h2, hne]
  · show k ∉ e.tracks ++ [e.nextId]
    simp [h4, hne]
  · show k ∉ e.contexts ++ [e.nextId]
    simp [h5, hne]
  · show k ∉ e.timers ++ [e.nextId]
    simp [h6, hne]
  · show k ∉ e.frames ++ [e.nextId]
    simp [h7, hne]

theorem Done.keep_halt {e : Env} {k r : Nat} (t a c : Option Nat) (h : e.Done k)
    (hr : r ∈ e.recording) : (e.halted r t a c).Done k := by
  obtain ⟨h1, h2, h3, ⟨h4, h5, h6, h7⟩, h8⟩ := h
  obtain ⟨f1, _, f3, f4, f5, f6, f7, f8, f9, _, _, _⟩ := halted_fields e r t a c
  have hne : k ≠ r := fun hkr => h2 (hkr ▸ hr)
  refine ⟨?_, ?_, ?_, ⟨?_, f7 k h5, f8 k h6, f9 k h7⟩, ?_⟩
  · rw [f1]
    exact h1
  · rw [f4]
    simp [List.mem_filter, h2]
  · rw [f5]
    simp [h3, hne]
  · rw [f3]
    exact h4
  · unfold emittedCount
    rw [f6]
    exact h8

theorem Done.keep_complete {e : Env} {k j : Nat} (b : Blob) (h : e.Done k)
    (hj : j ∈ e.finalizing) : (e.completed j b).Done k := by
  obtain ⟨h1, h2, h3, ⟨h4, h5, h6, h7⟩, h8⟩ := h
  have hne : j ≠ k := fun hjk => h3 (hjk ▸ hj)
  refine ⟨h1, h2, ?_, ⟨?_, h5, h6, h7⟩, ?_⟩
  · show k ∉ e.finalizing.erase j
    exact fun hk => h3 (List.mem_of_mem_erase hk)
  · show k ∉ e.tracks.filter (fun x => x != j)
    simp [List.mem_filter, h4]
  · show ((e.dispatchStop j).newBlob j b).emittedCount k = 1
    rw [emittedCount_newBlob]
    simp [hne]
    exact h8

end Env

/-! ## The capture invariant is preserved -/

theorem CaptureInv.empty : CaptureInv Env.empty false none none none none where
  current := by simp
  recording := by simp [Env.empty]
  finalizing := by simp [Env.empty]
  emitted := by simp [Env.empty]

theorem CaptureInv.inv_acquire {e : Env} {b : Bool} {r t a c : Option Nat}
    (h : CaptureInv e b r t a c) :
    CaptureInv e.acquired true (some e.nextId) (some e.nextId) (some e.nextId)
      (some e.nextId) where
  current := by
    intro _
    refine ⟨e.nextId, rfl, rfl, rfl, rfl, ?_, ⟨?_, ?_, ?_, ?_⟩, ?_⟩
    · show e.nextId ∈ e.recording ++ [e.nextId]
      simp
    · show e.nextId ∈ e.tracks ++ [e.nextId]
      simp
    · show e.nextId ∈ e.contexts ++ [e.nextId]
      simp
    · show e.nextId ∈ e.timers ++ [e.nextId]
      simp
    · show e.nextId ∈ e.frames ++ [e.nextId]
      simp
    · show (e.frames ++ [e.nextId]).getLast? = some e.nextId
      simp
  recording := by
    intro k hk
    have hk2 : k ∈ e.recording ++ [e.nextId] := hk
    rw [List.mem_append, List.mem_singleton] at hk2
    rcases hk2 with hk2 | hk2
    · obtain ⟨h1, h2, h3, h4⟩ := h.recording k hk2
      refine ⟨?_, h2, ?_, h4⟩
      · show k < e.nextId + 1
        omega
      · show k ∈ e.tracks ++ [e.nextId]
        simp [h3]
    · subst hk2
      refine ⟨?_, ?_, ?_, ?_⟩
      · show e.nextId < e.nextId + 1
        omega
      · intro hf
        have := (h.finalizing _ hf).1
        omega
      · show e.nextId ∈ e.tracks ++ [e.nextId]
        simp
      · exact Env.emittedCount_eq_zero_of_fresh e e.nextId h.emitted
  finalizing := fun k hk => (h.finalizing k hk).after_acquire
  emitted := by
    intro p hp
    have := h.emitted p hp
    show p.1 < e.nextId + 1
    omega

theorem CaptureInv.inv_halt {e : Env} {r t a c : Option Nat} {k : Nat}
    (h : CaptureInv e true r t a c) (hr : r = some k) (hk : k ∈ e.recording) :
    CaptureInv (e.halted k t a c) false r t a c ∧ (e.halted k t a c).Stopping k := by
  obtain ⟨k1, e1, e2, e3, e4, _, _, _⟩ := h.current rfl
  have hkk : k1 = k := by
    rw [hr] at e1
    exact (Option.some.inj e1).symm
  subst hkk
  obtain ⟨f1, f2, f3, f4, f5, f6, f7, f8, f9, f10, f11, f12⟩ := Env.halted_fields e k1 t a c
  obtain ⟨r1, r2, r3, r4⟩ := h.recording k1 hk
  have hstop : (e.halted k1 t a c).Stopping k1 := by
    refine ⟨?_, ?_, ?_, ?_, f10 k1 e4, f11 k1 e2, f12 k1 e3, ?_⟩
    · rw [f1]
      exact r1
    · rw [f5, List.count_append, List.count_eq_zero_of_not_mem r2]
      simp
    · rw [f4]
      simp [List.mem_filter]
    · rw [f3]
      exact r3
    · unfold Env.emittedCount
      rw [f6]
      exact r4
  refine ⟨⟨by simp, ?_, ?_, ?_⟩, hstop⟩
  · intro j hj
    rw [f4, List.mem_filter] at hj
    obtain ⟨hj1, hj2⟩ := hj
    have hne : j ≠ k1 := by simpa using hj2
    obtain ⟨q1, q2, q3, q4⟩ := h.recording j hj1
    refine ⟨?_, ?_, ?_, ?_⟩
    · rw [f1]
      exact q1
    · rw [f5]
      simp [q2, hne]
    · rw [f3]
      exact q3
    · unfold Env.emittedCount
      rw [f6]
      exact q4
  · intro j hj
    rw [f5, List.mem_append, List.mem_singleton] at hj
    rcases hj with hj | hj
    · exact (h.finalizing j hj).after_halt t a c hk
    · rw [hj]
      exact hstop
  · intro p hp
    rw [f6] at hp
    rw [f1]
    exact h.emitted p hp

theorem CaptureInv.inv_complete {e : Env} {b : Bool} {r t a c : Option Nat} {k : Nat}
    (blob : Blob) (h : CaptureInv e b r t a c) (hk : k ∈ e.finalizing) :
    CaptureInv (e.completed k blob) b r t a c where
  current := by
    intro hb
    obtain ⟨j, e1, e2, e3, e4, e5, ⟨l1, l2, l3, l4⟩, e6⟩ := h.current hb
    have hne : j ≠ k := fun hjk => (h.recording j e5).2.1 (hjk ▸ hk)
    refine ⟨j, e1, e2, e3, e4, e5, ⟨?_, l2, l3, l4⟩, e6⟩
    show j ∈ e.tracks.filter (fun x => x != k)
    simp [List.mem_filter, l1, hne]
  recording := by
    intro j hj
    obtain ⟨q1, q2, q3, q4⟩ := h.recording j hj
    have hne : k ≠ j := fun hkj => q2 (hkj ▸ hk)
    refine ⟨q1, fun hm => q2 (List.mem_of_mem_erase hm), ?_, ?_⟩
    · show j ∈ e.tracks.filter (fun x => x != k)
      simp [List.mem_filter, q3, Ne.symm hne]
    · show ((e.dispatchStop k).newBlob k blob).emittedCount j = 0
      rw [Env.emittedCount_newBlob]
      simp [hne]
      exact q4
  finalizing := by
    intro j hj
    have hj1 : j ∈ e.finalizing.erase k := hj
    have hj2 : j ∈ e.finalizing := List.mem_of_mem_erase hj1
    have hne : k ≠ j := by
      intro hkj
      subst hkj
      have hc := (h.finalizing k hk).2.1
      have h0 : (e.finalizing.erase k).count k = 0 := by
        rw [List.count_erase_self, hc]
      exact List.count_eq_zero.mp h0 hj1
    exact (h.finalizing j hj2).completed_other blob hne
  emitted := by
    intro p hp
    have hp1 : p ∈ e.emitted ++ [(k, blob)] := hp
    rw [List.mem_append, List.mem_singleton] at hp1
    rcases hp1 with hp1 | hp1
    · exact h.emitted p hp1
    · rw [hp1]
      exact (h.finalizing k hk).1

theorem CaptureInv.frame {e : Env} {b : Bool} {r t a c : Option Nat} {j : Nat}
    (h : CaptureInv e b r t a c) (hj : e.frames.getLast? = some j) :
    CaptureInv e b r t (some j) c where
  current := by
    intro hb
    obtain ⟨k, e1, e2, e3, e4, e5, e6, e7⟩ := h.current hb
    have hjk : j = k := by
      rw [hj] at e7
      exact Option.some.inj e7
    exact ⟨k, e1, e2, hjk ▸ rfl, e4, e5, e6, e7⟩
  recording := h.recording
  finalizing := h.finalizing
  emitted := h.emitted

theorem CaptureInv.requests {e : Env} {b : Bool} {r t a c : Option Nat} (n : Nat)
    (h : CaptureInv e b r t a c) : CaptureInv { e with requests := n } b r t a c :=
  ⟨h.current, h.recording, h.finalizing, h.emitted⟩

/-! ## Capture steps -/

theorem CaptureStep.inv {c d : Capture} {l : Option Nat} (h : CaptureStep c l d)
    (hc : c.Inv) : d.Inv := by
  cases h with
  | idle n => exact CaptureInv.requests n hc
  | acquire => exact CaptureInv.inv_acquire hc
  | halt r h1 h2 h3 =>
    have hc2 : CaptureInv c.env true c.mediaRecorderRef c.timerRef c.animationRef
        c.audioContextRef := h2 ▸ hc
    exact (hc2.inv_halt h1 h3).1
  | complete k b hk => exact CaptureInv.inv_complete b hc hk
  | frame j hj => exact CaptureInv.frame hc hj

theorem CaptureStep.stopping {c d : Capture} {l : Option Nat} {k : Nat}
    (h : CaptureStep c l d) (hk : c.env.Stopping k) (hl : l ≠ some k) : d.env.Stopping k := by
  cases h with
  | idle n => exact hk
  | acquire => exact hk.after_acquire
  | halt r h1 h2 h3 => exact hk.after_halt _ _ _ h3
  | complete j b hj =>
    exact hk.completed_other b (fun hjk => hl (by rw [hjk]))
  | frame j hj => exact hk

theorem CaptureStep.finish {c d : Capture} {k : Nat}
    (h : CaptureStep c (some k) d) (hk : c.env.Stopping k) : d.env.Done k := by
  cases h with
  | complete _ b hj => exact hk.completed_self b

theorem CaptureStep.done {c d : Capture} {l : Option Nat} {k : Nat}
    (h : CaptureStep c l d) (hk : c.env.Done k) : d.env.Done k := by
  cases h with
  | idle n => exact hk
  | acquire => exact hk.keep_acquire
  | halt r h1 h2 h3 => exact hk.keep_halt _ _ _ h3
  | complete j b hj => exact hk.keep_complete b hj
  | frame j hj => exact hk

/-! ## RecordPage refines the capture steps -/

namespace RecordPage

theorem step_eq_some_rec {s t : RecordSys} {e : RecordEvent} (h : step s e = some t) :
    enabled s e = true ∧ t = handle s e := by
  unfold step at h
  split at h
  · rename_i hen
    exact ⟨hen, (Option.some.inj h).symm⟩
  · cases h

theorem capture_stopRecording_rec {s : RecordSys} {r : Nat} (h1 : s.ui.mediaRecorderRef = some r)
    (h2 : s.ui.isRecording = true) (h3 : r ∈ s.env.recording) :
    capture (stopRecording s) = { capture s with
      env := s.env.halted r s.ui.timerRef s.ui.animationRef s.ui.audioContextRef,
      isRecording := false } := by
  simp only [capture, stopRecording, h1, h2, h3, Env.halted, if_true]

theorem capture_stopRecording_noop_rec {s : RecordSys}
    (h : ¬ ∃ r, s.ui.mediaRecorderRef = some r ∧ s.ui.isRecording = true ∧ r ∈ s.env.recording) :
    stopRecording s = s := by
  unfold stopRecording
  rcases h1 : s.ui.mediaRecorderRef with _ | r
  · rfl
  · rcases h2 : s.ui.isRecording with _ | _
    · rfl
    · have h3 : r ∉ s.env.recording := fun h3 => h ⟨r, h1, h2, h3⟩
      simp [h3]

theorem step_capture_rec {s t : RecordSys} {e : RecordEvent} (h : step s e = some t) :
    CaptureStep (capture s) e.completes (capture t) := by
  obtain ⟨hen, rfl⟩ := step_eq_some_rec h
  cases e with
  | clickStart => exact CaptureStep.idle (capture s) (s.env.requests + 1)
  | clickStop =>
    by_cases hx : ∃ r, s.ui.mediaRecorderRef = some r ∧ s.ui.isRecording = true
        ∧ r ∈ s.env.recording
    · obtain ⟨r, h1, h2, h3⟩ := hx
      show CaptureStep (capture s) none (capture (stopRecording s))
      rw [capture_stopRecording_rec h1 h2 h3]
      exact CaptureStep.halt (capture s) r h1 h2 h3
    · show CaptureStep (capture s) none (capture (stopRecording s))
      rw [capture_stopRecording_noop_rec hx]
      exact CaptureStep.idle (capture s) s.env.requests
  | clickReset => exact CaptureStep.idle (capture s) s.env.requests
  | granted d =>
    have hv : validBins d = true := by
      simp only [enabled, Bool.and_eq_true] at hen
      exact hen.2
    obtain ⟨level, hlevel⟩ := updateLevel_isSome hv
    show CaptureStep (capture s) none (capture (startRecordingResolved d s))
    have hc : capture (startRecordingResolved d s) =
        { env := s.env.acquired, isRecording := true, mediaRecorderRef := some s.env.nextId,
          timerRef := some s.env.nextId, animationRef := some s.env.nextId,
          audioContextRef := some s.env.nextId } := by
      simp only [capture, startRecordingResolved, hlevel]
      rfl
    rw [hc]
    exact CaptureStep.acquire (capture s)
  | rejected => exact CaptureStep.idle (capture s) (s.env.requests - 1)
  | dataavailable k size =>
    show CaptureStep (capture s) none (capture (ondataavailable k size s))
    unfold ondataavailable
    split
    · exact CaptureStep.idle (capture s) s.env.requests
    · exact CaptureStep.idle (capture s) s.env.requests
  | stopped k =>
    have hk : k ∈ s.env.finalizing := by
      simpa [enabled] using hen
    exact CaptureStep.complete (capture s) k s.ui.chunksRef hk
  | identified k f =>
    show CaptureStep (capture s) none (capture (onstopSettled k (identifySpeaker f) s))
    unfold onstopSettled
    split
    · exact CaptureStep.idle (capture s) s.env.requests
    · exact CaptureStep.idle (capture s) s.env.requests
  | tick k => exact CaptureStep.idle (capture s) s.env.requests
  | frame d =>
    have hv : validBins d = true := by
      simp only [enabled, Bool.and_eq_true] at hen
      exact hen.2
    obtain ⟨level, hlevel⟩ := updateLevel_isSome hv
    show CaptureStep (capture s) none (capture (animationFrame d s))
    rcases hlast : s.env.frames.getLast? with _ | j
    · have hc : animationFrame d s = s := by
        simp only [animationFrame, hlast]
      rw [hc]
      exact CaptureStep.idle (capture s) s.env.requests
    · have hc : capture (animationFrame d s) = { capture s with animationRef := some j } := by
        simp only [capture, animationFrame, hlast, hlevel]
      rw [hc]
      exact CaptureStep.frame (capture s) j hlast

theorem inv_of_reachable_rec {s : RecordSys} (h : Reachable s) : (capture s).Inv := by
  induction h with
  | init => exact CaptureInv.empty
  | step e _ hstep ih => exact (step_capture_rec hstep).inv ih

theorem reachable_of_run_rec {s t : RecordSys} (hs : Reachable s) (es : List RecordEvent)
    (h : run s es = some t) : Reachable t := by
  induction es generalizing s with
  | nil =>
    simp only [run, Option.some.injEq] at h
    exact h ▸ hs
  | cons e es ih =>
    simp only [run] at h
    rcases hstep : step s e with _ | u
    · simp [hstep] at h
    · rw [hstep] at h
      exact ih (Reachable.step e hs hstep) h

theorem run_done_rec {s t : RecordSys} {k : Nat} (es : List RecordEvent)
    (hk : s.env.Done k) (h : run s es = some t) : t.env.Done k := by
  induction es generalizing s with
  | nil =>
    simp only [run, Option.some.injEq] at h
    exact h ▸ hk
  | cons e es ih =>
    simp only [run] at h
    rcases hstep : step s e with _ | u
    · simp [hstep] at h
    · rw [hstep] at h
      exact ih ((step_capture_rec hstep).done hk) h

theorem run_stopping_rec {s t : RecordSys} {k : Nat} (es : List RecordEvent)
    (hk : s.env.Stopping k) (h : run s es = some t) :
    (RecordEvent.stopped k ∈ es → t.env.Done k)
    ∧ (RecordEvent.stopped k ∉ es → t.env.Stopping k) := by
  induction es generalizing s with
  | nil =>
    simp only [run, Option.some.injEq] at h
    subst h
    simp [hk]
  | cons e es ih =>
    simp only [run] at h
    rcases hstep : step s e with _ | u
    · simp [hstep] at h
    · rw [hstep] at h
      by_cases he : e = RecordEvent.stopped k
      · subst he
        have hd : u.env.Done k := (step_capture_rec hstep).finish hk
        exact ⟨fun _ => run_done_rec es hd h, fun hn => absurd (List.mem_cons_self _ _) hn⟩
      · have hl : e.completes ≠ some k := by
          cases e <;> simp [RecordEvent.completes] at he ⊢
          exact he
        have hu : u.env.Stopping k := (step_capture_rec hstep).stopping hk hl
        obtain ⟨i1, i2⟩ := ih hu h
        refine ⟨fun hm => i1 ?_, fun hn => i2 (fun hm => hn (List.mem_cons_of_mem _ hm))⟩
        rcases List.mem_cons.mp hm with hm | hm
        · exact absurd hm.symm he
        · exact hm

end RecordPage

/-! ## MonitorPage refines the capture steps -/

namespace MonitorPage

theorem step_eq_some_mon {s t : MonitorSys} {e : MonitorEvent} (h : step s e = some t) :
    enabled s e = true ∧ t = handle s e := by
  unfold step at h
  split at h
  · rename_i hen
    exact ⟨hen, (Option.some.inj h).symm⟩
  · cases h

theorem capture_stopRecording_mon {s : MonitorSys} {r : Nat}
    (h1 : s.ui.mediaRecorderRef = some r) (h2 : s.ui.isRecording = true)
    (h3 : r ∈ s.env.recording) :
    capture (stopRecording s) = { capture s with
      env := s.env.halted r s.ui.timerRef s.ui.animationRef s.ui.audioContextRef,
      isRecording := false } := by
  simp only [capture, stopRecording, h1, h2, h3, Env.halted, if_true]

theorem capture_stopRecording_noop_mon {s : MonitorSys}
    (h : ¬ ∃ r, s.ui.mediaRecorderRef = some r ∧ s.ui.isRecording = true ∧ r ∈ s.env.recording) :
    stopRecording s = s := by
  unfold stopRecording
  rcases h1 : s.ui.mediaRecorderRef with _ | r
  · rfl
  · rcases h2 : s.ui.isRecording with _ | _
    · rfl
    · have h3 : r ∉ s.env.recording := fun h3 => h ⟨r, h1, h2, h3⟩
      simp [h3]

theorem capture_submitRegistration (s : MonitorSys) :
    capture (submitRegistration s) = capture s := by
  unfold submitRegistration
  split
  · rfl
  · split <;> rfl

theorem capture_submitRegistrationSettled (i : Nat) (gateway : Nat → Fetched Unit)
    (s : MonitorSys) : capture (submitRegistrationSettled i gateway s) = capture s := by
  unfold submitRegistrationSettled
  split
  · rfl
  · dsimp only
    split <;> rfl

theorem capture_loadSpeakersSettled (o : Except String (Option (List Speaker)))
    (s : MonitorSys) : capture (loadSpeakersSettled o s) = capture s := by
  unfold loadSpeakersSettled
  split <;> rfl

theorem capture_handleRetrain (confirmed : Bool) (s : MonitorSys) :
    capture (handleRetrain confirmed s) = capture s := by
  unfold handleRetrain
  split <;> rfl

theorem step_capture_mon {s t : MonitorSys} {e : MonitorEvent} (h : step s e = some t) :
    CaptureStep (capture s) e.completes (capture t) := by
  obtain ⟨hen, rfl⟩ := step_eq_some_mon h
  cases e with
  | clickView => exact CaptureStep.idle (capture s) s.env.requests
  | clickRegister => exact CaptureStep.idle (capture s) s.env.requests
  | typeName v => exact CaptureStep.idle (capture s) s.env.requests
  | clickStart => exact CaptureStep.idle (capture s) (s.env.requests + 1)
  | clickStop =>
    by_cases hx : ∃ r, s.ui.mediaRecorderRef = some r ∧ s.ui.isRecording = true
        ∧ r ∈ s.env.recording
    · obtain ⟨r, h1, h2, h3⟩ := hx
      show CaptureStep (capture s) none (capture (stopRecording s))
      rw [capture_stopRecording_mon h1 h2 h3]
      exact CaptureStep.halt (capture s) r h1 h2 h3
    · show CaptureStep (capture s) none (capture (stopRecording s))
      rw [capture_stopRecording_noop_mon hx]
      exact CaptureStep.idle (capture s) s.env.requests
  | clickSubmit =>
    show CaptureStep (capture s) none (capture (submitRegistration s))
    rw [capture_submitRegistration]
    exact CaptureStep.idle (capture s) s.env.requests
  | clickRefresh => exact CaptureStep.idle (capture s) s.env.requests
  | clickRetrain confirmed =>
    show CaptureStep (capture s) none (capture (handleRetrain confirmed s))
    rw [capture_handleRetrain]
    exact CaptureStep.idle (capture s) s.env.requests
  | granted d =>
    have hv : validBins d = true := by
      simp only [enabled, Bool.and_eq_true] at hen
      exact hen.2
    obtain ⟨level, hlevel⟩ := updateLevel_isSome hv
    show CaptureStep (capture s) none (capture (startRecordingResolved d s))
    have hc : capture (startRecordingResolved d s) =
        { env := s.env.acquired, isRecording := true, mediaRecorderRef := some s.env.nextId,
          timerRef := some s.env.nextId, animationRef := some s.env.nextId,
          audioContextRef := some s.env.nextId } := by
      simp only [capture, startRecordingResolved, hlevel]
      rfl
    rw [hc]
    exact CaptureStep.acquire (capture s)
  | rejected => exact CaptureStep.idle (capture s) (s.env.requests - 1)
  | dataavailable k size =>
    show CaptureStep (capture s) none (capture (ondataavailable k size s))
    unfold ondataavailable
    split
    · exact CaptureStep.idle (capture s) s.env.requests
    · exact CaptureStep.idle (capture s) s.env.requests
  | stopped k =>
    have hk : k ∈ s.env.finalizing := by
      simpa [enabled] using hen
    exact CaptureStep.complete (capture s) k s.ui.chunksRef hk
  | tick k => exact CaptureStep.idle (capture s) s.env.requests
  | frame d =>
    have hv : validBins d = true := by
      simp only [enabled, Bool.and_eq_true] at hen
      exact hen.2
    obtain ⟨level, hlevel⟩ := updateLevel_isSome hv
    show CaptureStep (capture s) none (capture (animationFrame d s))
    rcases hlast : s.env.frames.getLast? with _ | j
    · have hc : animationFrame d s = s := by
        simp only [animationFrame, hlast]
      rw [hc]
      exact CaptureStep.idle (capture s) s.env.requests
    · have hc : capture (animationFrame d s) = { capture s with animationRef := some j } := by
        simp only [capture, animationFrame, hlast, hlevel]
      rw [hc]
      exact CaptureStep.frame (capture s) j hlast
  | uploadsSettled i gateway =>
    show CaptureStep (capture s) none (capture (submitRegistrationSettled i gateway s))
    rw [capture_submitRegistrationSettled]
    exact CaptureStep.idle (capture s) s.env.requests
  | speakersSettled f =>
    show CaptureStep (capture s) none
      (capture (loadSpeakersSettled (getRegisteredSpeakers f) s))
    rw [capture_loadSpeakersSettled]
    exact CaptureStep.idle (capture s) s.env.requests
  | retrainSettled f => exact CaptureStep.idle (capture s) s.env.requests

theorem inv_of_reachable_mon {s : MonitorSys} (h : Reachable s) : (capture s).Inv := by
  induction h with
  | init => exact CaptureInv.empty
  | step e _ hstep ih => exact (step_capture_mon hstep).inv ih

theorem reachable_of_run_mon {s t : MonitorSys} (hs : Reachable s) (es : List MonitorEvent)
    (h : run s es = some t) : Reachable t := by
  induction es generalizing s with
  | nil =>
    simp only [run, Option.some.injEq] at h
    exact h ▸ hs
  | cons e es ih =>
    simp only [run] at h
    rcases hstep : step s e with _ | u
    · simp [hstep] at h
    · rw [hstep] at h
      exact ih (Reachable.step e hs hstep) h

theorem run_done_mon {s t : MonitorSys} {k : Nat} (es : List MonitorEvent)
    (hk : s.env.Done k) (h : run s es = some t) : t.env.Done k := by
  induction es generalizing s with
  | nil =>
    simp only [run, Option.some.injEq] at h
    exact h ▸ hk
  | cons e es ih =>
    simp only [run] at h
    rcases hstep : step s e with _ | u
    · simp [hstep] at h
    · rw [hstep] at h
      exact ih ((step_capture_mon hstep).done hk) h

theorem completes_stopped {e : MonitorEvent} {k : Nat} (h : e.completes = some k) :
    e = MonitorEvent.stopped k := by
  cases e <;> simp [MonitorEvent.completes] at h
  rw [h]

theorem run_stopping_mon {s t : MonitorSys} {k : Nat} (es : List MonitorEvent)
    (hk : s.env.Stopping k) (h : run s es = some t) :
    (MonitorEvent.stopped k ∈ es → t.env.Done k)
    ∧ (MonitorEvent.stopped k ∉ es → t.env.Stopping k) := by
  induction es generalizing s with
  | nil =>
    simp only [run, Option.some.injEq] at h
    subst h
    simp [hk]
  | cons e es ih =>
    simp only [run] at h
    rcases hstep : step s e with _ | u
    · simp [hstep] at h
    · rw [hstep] at h
      by_cases he : e = MonitorEvent.stopped k
      · subst he
        have hd : u.env.Done k := (step_capture_mon hstep).finish hk
        exact ⟨fun _ => run_done_mon es hd h, fun hn => absurd (List.mem_cons_self _ _) hn⟩
      · have hl : e.completes ≠ some k := fun hc => he (completes_stopped hc)
        have hu : u.env.Stopping k := (step_capture_mon hstep).stopping hk hl
        obtain ⟨i1, i2⟩ := ih hu h
        refine ⟨fun hm => i1 ?_, fun hn => i2 (fun hm => hn (List.mem_cons_of_mem _ hm))⟩
        rcases List.mem_cons.mp hm with hm | hm
        · exact absurd hm.symm he
        · exact hm

end MonitorPage

/-! ## Example states are reachable -/

set_option maxRecDepth 100000 in
theorem RecordPage.recordingSys_reachable_rec : RecordPage.Reachable RecordPage.recordingSys :=
  RecordPage.reachable_of_run_rec RecordPage.Reachable.init [.clickStart, .granted silence] rfl

set_option maxRecDepth 100000 in
theorem MonitorPage.recordingSys_reachable_mon : MonitorPage.Reachable MonitorPage.recordingSys :=
  MonitorPage.reachable_of_run_mon MonitorPage.Reachable.init
    [.clickRegister, .typeName "Alice", .clickStart, .granted silence] rfl

/-! ## Capture sessions: what stop releases -/

theorem Capture.stop_of_inv {c : Capture} (hc : c.Inv) (hrec : c.isRecording = true) :
    ∃ k, c.mediaRecorderRef = some k ∧ k ∈ c.env.recording ∧ c.env.Live k
      ∧ (c.env.halted k c.timerRef c.animationRef c.audioContextRef).Stopping k := by
  obtain ⟨k, e1, e2, e3, e4, e5, e6, e7⟩ := CaptureInv.current hc hrec
  have hc2 : CaptureInv c.env true c.mediaRecorderRef c.timerRef c.animationRef
      c.audioContextRef := hrec ▸ hc
  exact ⟨k, e1, e5, e6, (hc2.inv_halt e1 e5).2⟩

theorem RecordPage.stop_of_reachable_rec {s : RecordSys} (hs : RecordPage.Reachable s)
    (hrec : s.ui.isRecording = true) :
    ∃ k, s.ui.mediaRecorderRef = some k ∧ s.env.Live k
      ∧ (RecordPage.stopRecording s).env.Stopping k
      ∧ (RecordPage.stopRecording s).ui.isRecording = false := by
  obtain ⟨k, h1, h2, h3, h4⟩ := Capture.stop_of_inv (RecordPage.inv_of_reachable_rec hs) hrec
  have hc := RecordPage.capture_stopRecording_rec h1 hrec h2
  have henv : (RecordPage.stopRecording s).env
      = s.env.halted k s.ui.timerRef s.ui.animationRef s.ui.audioContextRef :=
    congrArg Capture.env hc
  have hflag : (RecordPage.stopRecording s).ui.isRecording = false :=
    congrArg Capture.isRecording hc
  exact ⟨k, h1, h3, henv ▸ h4, hflag⟩

theorem MonitorPage.stop_of_reachable_mon {s : MonitorSys} (hs : MonitorPage.Reachable s)
    (hrec : s.ui.isRecording = true) :
    ∃ k, s.ui.mediaRecorderRef = some k ∧ s.env.Live k
      ∧ (MonitorPage.stopRecording s).env.Stopping k
      ∧ (MonitorPage.stopRecording s).ui.isRecording = false := by
  obtain ⟨k, h1, h2, h3, h4⟩ := Capture.stop_of_inv (MonitorPage.inv_of_reachable_mon hs) hrec
  have hc := MonitorPage.capture_stopRecording_mon h1 hrec h2
  have henv : (MonitorPage.stopRecording s).env
      = s.env.halted k s.ui.timerRef s.ui.animationRef s.ui.audioContextRef :=
    congrArg Capture.env hc
  have hflag : (MonitorPage.stopRecording s).ui.isRecording = false :=
    congrArg Capture.isRecording hc
  exact ⟨k, h1, h3, henv ▸ h4, hflag⟩

theorem Env.Done.spelled {e : Env} {k : Nat} (h : e.Done k) :
    k ∉ e.tracks ∧ k ∉ e.frames ∧ k ∉ e.timers ∧ e.emittedCount k = 1 :=
  ⟨h.2.2.2.1.1, h.2.2.2.1.2.2.2, h.2.2.2.1.2.2.1, h.2.2.2.2⟩

/-- C3: on both pages, when `stopRecording` runs in a reachable state that is recording and
the completion handler of the stopped recorder has fired, whatever else happened in between
and afterwards, the device tracks of that session are stopped, its sampling loop has no
pending frame, its interval is cleared and exactly one blob was emitted for it. -/
theorem C3_stop_resolved_releases (s : RecordSys) (m : MonitorSys)
    (hs : RecordPage.Reachable s) (hm : MonitorPage.Reachable m)
    (hsr : s.ui.isRecording = true) (hmr : m.ui.isRecording = true) :
    (∃ k, s.ui.mediaRecorderRef = some k ∧
      ∀ (es : List RecordEvent) (t : RecordSys),
        RecordPage.run (RecordPage.stopRecording s) es = some t → RecordEvent.stopped k ∈ es →
        k ∉ t.env.tracks ∧ k ∉ t.env.frames ∧ k ∉ t.env.timers ∧ t.env.emittedCount k = 1)
    ∧ (∃ k, m.ui.mediaRecorderRef = some k ∧
      ∀ (es : List MonitorEvent) (t : MonitorSys),
        MonitorPage.run (MonitorPage.stopRecording m) es = some t →
        MonitorEvent.stopped k ∈ es →
        k ∉ t.env.tracks ∧ k ∉ t.env.frames ∧ k ∉ t.env.timers ∧ t.env.emittedCount k = 1) := by
  constructor
  · obtain ⟨k, h1, _, h3, _⟩ := RecordPage.stop_of_reachable_rec hs hsr
    exact ⟨k, h1, fun es t hrun hmem => ((RecordPage.run_stopping_rec es h3 hrun).1 hmem).spelled⟩
  · obtain ⟨k, h1, _, h3, _⟩ := MonitorPage.stop_of_reachable_mon hm hmr
    exact ⟨k, h1, fun es t hrun hmem => ((MonitorPage.run_stopping_mon es h3 hrun).1 hmem).spelled⟩

set_option maxRecDepth 100000 in
/-- C3 at the first session of each page: stop, then the completion event of session 0. -/
theorem C3_witness :
    (0 ∉ (RecordPage.onstop 0 (RecordPage.stopRecording RecordPage.recordingSys)).env.tracks
      ∧ 0 ∉ (RecordPage.onstop 0 (RecordPage.stopRecording RecordPage.recordingSys)).env.frames
      ∧ 0 ∉ (RecordPage.onstop 0 (RecordPage.stopRecording RecordPage.recordingSys)).env.timers
      ∧ (RecordPage.onstop 0
          (RecordPage.stopRecording RecordPage.recordingSys)).env.emittedCount 0 = 1)
    ∧ (0 ∉ (MonitorPage.onstop 0 (MonitorPage.stopRecording MonitorPage.recordingSys)).env.tracks
      ∧ 0 ∉ (MonitorPage.onstop 0 (MonitorPage.stopRecording MonitorPage.recordingSys)).env.frames
      ∧ 0 ∉ (MonitorPage.onstop 0 (MonitorPage.stopRecording MonitorPage.recordingSys)).env.timers
      ∧ (MonitorPage.onstop 0
          (MonitorPage.stopRecording MonitorPage.recordingSys)).env.emittedCount 0 = 1) := by
  have h := C3_stop_resolved_releases RecordPage.recordingSys MonitorPage.recordingSys
    RecordPage.recordingSys_reachable_rec MonitorPage.recordingSys_reachable_mon rfl rfl
  obtain ⟨⟨k, hk, h1⟩, ⟨j, hj, h2⟩⟩ := h
  have hk0 : k = 0 := (Option.some.inj hk).symm
  have hj0 : j = 0 := (Option.some.inj hj).symm
  subst hk0
  subst hj0
  exact ⟨h1 [.stopped 0] _ rfl (List.mem_singleton.mpr rfl),
    h2 [.stopped 0] _ rfl (List.mem_singleton.mpr rfl)⟩

set_option maxRecDepth 100000 in
/-- C4 (counterexample): on the identification page, after start, grant and stop, and before
the recorder's completion event, the status is still `recording` while the interval, the
sampling loop and the audio context of the session are released and its device track is
live: the status is `recording` without all four being live, and only some of the four are
released. -/
theorem C4_counterexample :
    ∃ s, RecordPage.run RecordPage.initSys [.clickStart, .granted silence, .clickStop] = some s
      ∧ s.ui.status = .recording ∧ 0 ∈ s.env.tracks ∧ 0 ∉ s.env.timers ∧ 0 ∉ s.env.frames
      ∧ 0 ∉ s.env.contexts ∧ ¬ s.env.Live 0 ∧ ¬ s.env.Released 0 :=
  ⟨_, rfl, rfl, by decide, by decide, by decide, by decide,
    fun h => absurd h.2.2.1 (by decide), fun h => absurd (by decide) h.1⟩

/-- C4 (amended): in every reachable state of either page, `isRecording` implies that the
device track, the audio context, the interval and the sampling loop of the current session
are all live; `stopRecording` then releases the context, the interval and the loop in one
step and leaves the device track live; every session whose completion event is pending is
in that state (track live, the other three released, no blob yet). -/
theorem C4_recording_implies_live (s : RecordSys) (m : MonitorSys)
    (hs : RecordPage.Reachable s) (hm : MonitorPage.Reachable m) :
    (s.ui.isRecording = true → ∃ k, s.ui.mediaRecorderRef = some k ∧ s.env.Live k
        ∧ (RecordPage.stopRecording s).env.Stopping k)
    ∧ (∀ k ∈ s.env.finalizing, s.env.Stopping k)
    ∧ (m.ui.isRecording = true → ∃ k, m.ui.mediaRecorderRef = some k ∧ m.env.Live k
        ∧ (MonitorPage.stopRecording m).env.Stopping k)
    ∧ (∀ k ∈ m.env.finalizing, m.env.Stopping k) := by
  refine ⟨fun hrec => ?_, (RecordPage.inv_of_reachable_rec hs).finalizing, fun hrec => ?_,
    (MonitorPage.inv_of_reachable_mon hm).finalizing⟩
  · obtain ⟨k, h1, h2, h3, _⟩ := RecordPage.stop_of_reachable_rec hs hrec
    exact ⟨k, h1, h2, h3⟩
  · obtain ⟨k, h1, h2, h3, _⟩ := MonitorPage.stop_of_reachable_mon hm hrec
    exact ⟨k, h1, h2, h3⟩

/-- C4 (amended) at the first recording session of each page. -/
theorem C4_witness :
    (∃ k, RecordPage.recordingSys.ui.mediaRecorderRef = some k
        ∧ RecordPage.recordingSys.env.Live k
        ∧ (RecordPage.stopRecording RecordPage.recordingSys).env.Stopping k)
    ∧ (∃ k, MonitorPage.recordingSys.ui.mediaRecorderRef = some k
        ∧ MonitorPage.recordingSys.env.Live k
        ∧ (MonitorPage.stopRecording MonitorPage.recordingSys).env.Stopping k) :=
  ⟨(C4_recording_implies_live RecordPage.recordingSys MonitorPage.recordingSys
      RecordPage.recordingSys_reachable_rec MonitorPage.recordingSys_reachable_mon).1 rfl,
    (C4_recording_implies_live RecordPage.recordingSys MonitorPage.recordingSys
      RecordPage.recordingSys_reachable_rec MonitorPage.recordingSys_reachable_mon).2.2.1 rfl⟩

/-! ## Abandoning a page -/

set_option maxRecDepth 100000 in
/-- C5 (counterexample): the identification page is recording its first session and the user
navigates to the monitor page: the device track, the interval and the sampling loop of the
session are still live afterwards. -/
theorem C5_counterexample :
    RecordPage.recordingSys.ui.isRecording = true
    ∧ 0 ∈ (App.navigate (.record RecordPage.recordingSys) .monitor).env.tracks
    ∧ 0 ∈ (App.navigate (.record RecordPage.recordingSys) .monitor).env.timers
    ∧ 0 ∈ (App.navigate (.record RecordPage.recordingSys) .monitor).env.frames :=
  ⟨rfl, by decide, by decide, by decide⟩

/-- C5 (amended): navigating to the other page releases nothing: the browser holds the same
tracks, intervals, frame requests and contexts as before; so when the abandoned page was
recording, the device track, the interval and the sampling loop of its session stay live. -/
theorem C5_navigate_releases_nothing (s : RecordSys) (m : MonitorSys)
    (hs : RecordPage.Reachable s) (hm : MonitorPage.Reachable m)
    (hsr : s.ui.isRecording = true) (hmr : m.ui.isRecording = true) (target : PageName) :
    (App.navigate (.record s) target).env = s.env
    ∧ (App.navigate (.monitor m) target).env = m.env
    ∧ (∃ k, s.ui.mediaRecorderRef = some k
        ∧ (App.navigate (.record s) target).env.Live k)
    ∧ (∃ k, m.ui.mediaRecorderRef = some k
        ∧ (App.navigate (.monitor m) target).env.Live k) := by
  have e1 : (App.navigate (.record s) target).env = s.env := by
    cases target <;> rfl
  have e2 : (App.navigate (.monitor m) target).env = m.env := by
    cases target <;> rfl
  refine ⟨e1, e2, ?_, ?_⟩
  · obtain ⟨k, h1, h2, _⟩ := RecordPage.stop_of_reachable_rec hs hsr
    exact ⟨k, h1, e1 ▸ h2⟩
  · obtain ⟨k, h1, h2, _⟩ := MonitorPage.stop_of_reachable_mon hm hmr
    exact ⟨k, h1, e2 ▸ h2⟩

/-- C5 (amended) at the first recording session of each page, navigating to the other one. -/
theorem C5_witness :
    (App.navigate (.record RecordPage.recordingSys) .monitor).env = RecordPage.recordingSys.env
    ∧ (App.navigate (.monitor MonitorPage.recordingSys) .record).env
        = MonitorPage.recordingSys.env :=
  ⟨(C5_navigate_releases_nothing RecordPage.recordingSys MonitorPage.recordingSys
      RecordPage.recordingSys_reachable_rec MonitorPage.recordingSys_reachable_mon rfl rfl .monitor).1,
    (C5_navigate_releases_nothing RecordPage.recordingSys MonitorPage.recordingSys
      RecordPage.recordingSys_reachable_rec MonitorPage.recordingSys_reachable_mon rfl rfl .record).2.1⟩

/-! ## Enrollment draft: sample index and samples -/

namespace MonitorPage

/-- What one transition does to the sample index, the samples and the pending completions:
nothing; a reset of the draft; a stop that moves a recorder to the pending completions and
advances the index below 3; or a completion that appends one blob. -/
theorem draft_step {s t : MonitorSys} {e : MonitorEvent} (h : step s e = some t) :
    (t.ui.currentSample = s.ui.currentSample ∧ t.ui.samples = s.ui.samples
      ∧ t.env.finalizing = s.env.finalizing)
    ∨ (resetsDraft e = true ∧ t.ui.currentSample = 1 ∧ t.ui.samples = []
      ∧ t.env.finalizing = s.env.finalizing)
    ∨ (∃ r, t.ui.currentSample
          = (if s.ui.currentSample < 3 then s.ui.currentSample + 1 else s.ui.currentSample)
      ∧ t.ui.samples = s.ui.samples ∧ t.env.finalizing = s.env.finalizing ++ [r])
    ∨ (∃ k b, k ∈ s.env.finalizing ∧ t.ui.currentSample = s.ui.currentSample
      ∧ t.ui.samples = s.ui.samples ++ [b] ∧ t.env.finalizing = s.env.finalizing.erase k) := by
  obtain ⟨hen, rfl⟩ := step_eq_some_mon h
  cases e with
  | clickView => exact Or.inl ⟨rfl, rfl, rfl⟩
  | clickRegister => exact Or.inr (Or.inl ⟨rfl, rfl, rfl, rfl⟩)
  | typeName v => exact Or.inl ⟨rfl, rfl, rfl⟩
  | clickStart => exact Or.inl ⟨rfl, rfl, rfl⟩
  | clickStop =>
    by_cases hx : ∃ r, s.ui.mediaRecorderRef = some r ∧ s.ui.isRecording = true
        ∧ r ∈ s.env.recording
    · obtain ⟨r, h1, h2, h3⟩ := hx
      refine Or.inr (Or.inr (Or.inl ⟨r, ?_, ?_, ?_⟩))
      · simp only [handle, stopRecording, h1, h2, h3, if_true]
      · simp only [handle, stopRecording, h1, h2, h3, if_true]
      · have hc := congrArg Capture.env (capture_stopRecording_mon h1 h2 h3)
        have hf := (Env.halted_fields s.env r s.ui.timerRef s.ui.animationRef
          s.ui.audioContextRef).2.2.2.2.1
        show (stopRecording s).env.finalizing = s.env.finalizing ++ [r]
        rw [← hf]
        exact congrArg Env.finalizing hc
    · show _ ∨ _
      have hn : handle s .clickStop = s := capture_stopRecording_noop_mon hx
      rw [hn]
      exact Or.inl ⟨rfl, rfl, rfl⟩
  | clickSubmit =>
    refine Or.inl ?_
    show (submitRegistration s).ui.currentSample = _ ∧ (submitRegistration s).ui.samples = _
      ∧ (submitRegistration s).env.finalizing = _
    unfold submitRegistration
    split
    · exact ⟨rfl, rfl, rfl⟩
    · split <;> exact ⟨rfl, rfl, rfl⟩
  | clickRefresh => exact Or.inl ⟨rfl, rfl, rfl⟩
  | clickRetrain confirmed =>
    refine Or.inl ?_
    show (handleRetrain confirmed s).ui.currentSample = _
      ∧ (handleRetrain confirmed s).ui.samples = _
      ∧ (handleRetrain confirmed s).env.finalizing = _
    unfold handleRetrain
    split <;> exact ⟨rfl, rfl, rfl⟩
  | granted d =>
    refine Or.inl ?_
    show (startRecordingResolved d s).ui.currentSample = _
      ∧ (startRecordingResolved d s).ui.samples = _
      ∧ (startRecordingResolved d s).env.finalizing = _
    unfold startRecordingResolved
    dsimp only
    split <;> exact ⟨rfl, rfl, rfl⟩
  | rejected => exact Or.inl ⟨rfl, rfl, rfl⟩
  | dataavailable k size =>
    refine Or.inl ?_
    show (ondataavailable k size s).ui.currentSample = _
      ∧ (ondataavailable k size s).ui.samples = _
      ∧ (ondataavailable k size s).env.finalizing = _
    unfold ondataavailable
    split <;> exact ⟨rfl, rfl, rfl⟩
  | stopped k =>
    have hk : k ∈ s.env.finalizing := by
      simpa [enabled] using hen
    exact Or.inr (Or.inr (Or.inr ⟨k, s.ui.chunksRef, hk, rfl, rfl, rfl⟩))
  | tick k => exact Or.inl ⟨rfl, rfl, rfl⟩
  | frame d =>
    refine Or.inl ?_
    show (animationFrame d s).ui.currentSample = _ ∧ (animationFrame d s).ui.samples = _
      ∧ (animationFrame d s).env.finalizing = _
    unfold animationFrame
    split <;> exact ⟨rfl, rfl, rfl⟩
  | uploadsSettled i gateway =>
    show _ ∨ _ ∨ _ ∨ _
    simp only [handle, submitRegistrationSettled]
    split
    · exact Or.inl ⟨rfl, rfl, rfl⟩
    · split
      · exact Or.inr (Or.inl ⟨rfl, rfl, rfl, rfl⟩)
      · exact Or.inl ⟨rfl, rfl, rfl⟩
  | speakersSettled f =>
    refine Or.inl ?_
    show (loadSpeakersSettled (getRegisteredSpeakers f) s).ui.currentSample = _
      ∧ (loadSpeakersSettled (getRegisteredSpeakers f) s).ui.samples = _
      ∧ (loadSpeakersSettled (getRegisteredSpeakers f) s).env.finalizing = _
    unfold loadSpeakersSettled
    split <;> exact ⟨rfl, rfl, rfl⟩
  | retrainSettled f => exact Or.inl ⟨rfl, rfl, rfl⟩

theorem index_bounds_step {s t : MonitorSys} {e : MonitorEvent} (h : step s e = some t)
    (hb : 1 ≤ s.ui.currentSample ∧ s.ui.currentSample ≤ 3) :
    1 ≤ t.ui.currentSample ∧ t.ui.currentSample ≤ 3 := by
  rcases draft_step h with ⟨h1, _, _⟩ | ⟨_, h1, _, _⟩ | ⟨r, h1, _, _⟩ | ⟨k, b, _, h1, _, _⟩
  · rw [h1]
    exact hb
  · rw [h1]
    omega
  · rw [h1]
    split <;> omega
  · rw [h1]
    exact hb

end MonitorPage

/-- C8: in every reachable state of the enrollment page `currentSample` is between 1 and 3
inclusive, whatever sequence of start, stop, completion, mode, input and submission events
led there. -/
theorem C8_index_between_1_and_3 (s : MonitorSys) (hs : MonitorPage.Reachable s) :
    1 ≤ s.ui.currentSample ∧ s.ui.currentSample ≤ 3 := by
  induction hs with
  | init => exact ⟨Nat.le_refl 1, by decide⟩
  | step e _ hstep ih => exact MonitorPage.index_bounds_step hstep ih

/-- C8 at the enrollment page while its first session is recording. -/
theorem C8_witness :
    1 ≤ MonitorPage.recordingSys.ui.currentSample
    ∧ MonitorPage.recordingSys.ui.currentSample ≤ 3 :=
  C8_index_between_1_and_3 MonitorPage.recordingSys MonitorPage.recordingSys_reachable_mon

set_option maxRecDepth 100000 in
/-- C7 (counterexample): register mode, name "Alice", start, grant, stop: before the
completion event `currentSample` is 2, which is at most 3, and there are no samples, so
`samples.length` is not `currentSample - 1`. -/
theorem C7_counterexample :
    ∃ s, MonitorPage.run MonitorPage.initSys
        [.clickRegister, .typeName "Alice", .clickStart, .granted silence, .clickStop] = some s
      ∧ s.ui.currentSample = 2 ∧ s.ui.samples.length = 0
      ∧ s.ui.currentSample ≤ 3 ∧ s.ui.samples.length ≠ s.ui.currentSample - 1 :=
  ⟨_, rfl, rfl, rfl, by decide, by decide⟩

/-- C7 (amended): in every state reached by runs that reset the draft only while no recorder
completion is pending, `currentSample` equals `min (samples.length + pending + 1) 3`, where
`pending` counts the stopped recorders whose completion event has not fired; so with
nothing pending and at most two samples, `samples.length = currentSample - 1`. -/
theorem C7_index_tracks_samples (s : MonitorSys) (hs : MonitorPage.ReachableQuiet s) :
    s.ui.currentSample = min (s.ui.samples.length + s.env.finalizing.length + 1) 3
    ∧ (s.env.finalizing = [] → s.ui.samples.length ≤ 2 →
        s.ui.samples.length = s.ui.currentSample - 1) := by
  have key : s.ui.currentSample = min (s.ui.samples.length + s.env.finalizing.length + 1) 3 := by
    induction hs with
    | init => rfl
    | @step s0 t0 e _ hstep hquiet ih =>
      rcases MonitorPage.draft_step hstep with
        ⟨h1, h2, h3⟩ | ⟨hr, h1, h2, h3⟩ | ⟨r, h1, h2, h3⟩ | ⟨k, b, hk, h1, h2, h3⟩
      · rw [h1, h2, h3]
        exact ih
      · rw [h1, h2, h3, hquiet hr]
        rfl
      · rw [h1, h2, h3, List.length_append, List.length_singleton]
        split <;> omega
      · have hlen : 0 < s0.env.finalizing.length := List.length_pos_of_mem hk
        rw [h1, h2, h3, List.length_append, List.length_singleton,
          List.length_erase_of_mem hk]
        omega
  refine ⟨key, fun hf hl => ?_⟩
  rw [key, hf]
  simp only [List.length_nil]
  omega

namespace MonitorPage

theorem quiet_of_run {s t : MonitorSys} (hs : ReachableQuiet s) (es : List MonitorEvent)
    (hno : ∀ e ∈ es, resetsDraft e = false) (h : run s es = some t) : ReachableQuiet t := by
  induction es generalizing s with
  | nil =>
    simp only [run, Option.some.injEq] at h
    exact h ▸ hs
  | cons e es ih =>
    simp only [run] at h
    rcases hstep : step s e with _ | u
    · simp [hstep] at h
    · rw [hstep] at h
      have he : resetsDraft e = false := hno e (List.mem_cons_self _ _)
      refine ih (ReachableQuiet.step e hs hstep (fun hr => ?_))
        (fun x hx => hno x (List.mem_cons_of_mem _ hx)) h
      rw [he] at hr
      cases hr

set_option maxRecDepth 100000 in
theorem firstSampleSys_quiet : ReachableQuiet firstSampleSys := by
  have h1 : ReachableQuiet (handle initSys .clickRegister) :=
    ReachableQuiet.step .clickRegister ReachableQuiet.init rfl (fun _ => rfl)
  refine quiet_of_run h1
    [.typeName "Alice", .clickStart, .granted silence, .clickStop, .stopped 0] ?_ rfl
  simp [resetsDraft]

end MonitorPage

/-- C7 (amended) at the enrollment page after its first session was stopped and completed:
one sample, nothing pending, `currentSample` 2. -/
theorem C7_witness :
    MonitorPage.firstSampleSys.ui.currentSample
        = min (MonitorPage.firstSampleSys.ui.samples.length
          + MonitorPage.firstSampleSys.env.finalizing.length + 1) 3
    ∧ MonitorPage.firstSampleSys.ui.samples.length
        = MonitorPage.firstSampleSys.ui.currentSample - 1 :=
  ⟨(C7_index_tracks_samples MonitorPage.firstSampleSys MonitorPage.firstSampleSys_quiet).1,
    (C7_index_tracks_samples MonitorPage.firstSampleSys MonitorPage.firstSampleSys_quiet).2
      (by decide) (by decide)⟩

/-- C10 at the draft of "Alice" with a gateway that accepts every upload: the three calls
are issued in the order 1, 2, 3. -/
theorem C10_witness :
    (MonitorPage.submitRegistrationWith acceptAll MonitorPage.aliceDraft).registerCalls
      = [{ speakerName := "Alice", sampleNumber := 1, audioBlob := [{ session := 0, size := 1 }] },
        { speakerName := "Alice", sampleNumber := 2, audioBlob := [{ session := 1, size := 1 }] },
        { speakerName := "Alice", sampleNumber := 3, audioBlob := [{ session := 2, size := 1 }] }] := by
  obtain ⟨calls, h1, _, _, _, h5⟩ := C10_uploads_in_order acceptAll MonitorPage.aliceDraft
    [{ session := 0, size := 1 }] [{ session := 1, size := 1 }] [{ session := 2, size := 1 }]
    (by decide) rfl
  rw [h1, h5 (fun j _ => ⟨(), rfl⟩)]
  rfl

/-- The `catch` branch of the completion handler sets the status to `denied` and leaves the
stored result as it was. -/
theorem RecordPage.onstopSettled_error (k : Nat) (msg : String) (s : RecordSys) :
    (RecordPage.onstopSettled k (.error msg) s).ui.status = .denied
    ∧ (RecordPage.onstopSettled k (.error msg) s).ui.result = s.ui.result :=
  ⟨rfl, rfl⟩

/-! ## Submission: outcome -/

theorem uploadFrom_succeeds_iff (gateway : Nat → Fetched Unit) (name : String) (i : Nat)
    (samples : List Blob) :
    (uploadFrom gateway name i samples).2 = true
      ↔ ∀ j, j < samples.length → ∃ v, registerAudioSample (gateway (i + j)) = .ok v := by
  induction samples generalizing i with
  | nil => simp [uploadFrom]
  | cons b rest ih =>
    unfold uploadFrom
    rcases h0 : registerAudioSample (gateway i) with m | v
    · simp only [Bool.false_eq_true, false_iff, not_forall]
      refine ⟨0, by simp, ?_⟩
      rintro ⟨v, hv⟩
      rw [Nat.add_zero, h0] at hv
      cases hv
    · simp only
      rw [ih (i + 1)]
      constructor
      · intro h j hj
        cases j with
        | zero => exact ⟨v, h0⟩
        | succ j =>
          have := h j (by simpa using hj)
          rwa [Nat.add_assoc, Nat.add_comm 1 j] at this
      · intro h j hj
        have := h (j + 1) (by simpa using hj)
        rwa [Nat.add_assoc, Nat.add_comm 1 j]

theorem MonitorPage.submitRegistrationWith_outcome (gateway : Nat → Fetched Unit)
    (s : MonitorSys) (hl : s.ui.samples.length = 3) (hb : blank s.ui.speakerName = false) :
    ((uploadFrom gateway s.ui.speakerName 0 s.ui.samples).2 = true →
        (MonitorPage.submitRegistrationWith gateway s).ui
            = { s.ui with speakerName := "", samples := [], currentSample := 1, mode := .view }
          ∧ (MonitorPage.submitRegistrationWith gateway s).loadCalls = s.loadCalls + 1)
    ∧ ((uploadFrom gateway s.ui.speakerName 0 s.ui.samples).2 = false →
        (MonitorPage.submitRegistrationWith gateway s).ui = s.ui
          ∧ (MonitorPage.submitRegistrationWith gateway s).loadCalls = s.loadCalls) := by
  have h1 : MonitorPage.submitRegistration s = { s with
      submitting := s.submitting ++ [{ speakerName := s.ui.speakerName, samples := s.ui.samples }] } := by
    unfold MonitorPage.submitRegistration
    simp [hb, hl]
  unfold MonitorPage.submitRegistrationWith
  rw [h1]
  unfold MonitorPage.submitRegistrationSettled
  simp only [List.get?_eq_getElem?, List.getElem?_concat_length]
  constructor
  · intro hok
    simp [hok, MonitorPage.loadSpeakers]
  · intro hfail
    simp [hfail]

/-- C11: for a draft with three samples and a name that is non-empty after trimming, the
state after `submitRegistration` is decided by whether an upload failed: when all three
succeed the draft is empty (name empty, no samples, `currentSample` 1) and `loadSpeakers` is
called once; when one fails, the name, the samples and the rest of the component state are
unchanged and `loadSpeakers` is not called. -/
theorem C11_submission_outcome (gateway : Nat → Fetched Unit) (s : MonitorSys)
    (hsamples : s.ui.samples.length = 3) (hname : blank s.ui.speakerName = false) :
    ((∀ j, j < 3 → ∃ v, registerAudioSample (gateway j) = .ok v) →
        (MonitorPage.submitRegistrationWith gateway s).ui.speakerName = ""
        ∧ (MonitorPage.submitRegistrationWith gateway s).ui.samples = []
        ∧ (MonitorPage.submitRegistrationWith gateway s).ui.currentSample = 1
        ∧ (MonitorPage.submitRegistrationWith gateway s).loadCalls = s.loadCalls + 1)
    ∧ ((∃ j, j < 3 ∧ ∃ msg, registerAudioSample (gateway j) = .error msg) →
        (MonitorPage.submitRegistrationWith gateway s).ui = s.ui
        ∧ (MonitorPage.submitRegistrationWith gateway s).ui.speakerName = s.ui.speakerName
        ∧ (MonitorPage.submitRegistrationWith gateway s).ui.samples = s.ui.samples
        ∧ (MonitorPage.submitRegistrationWith gateway s).loadCalls = s.loadCalls) := by
  obtain ⟨hok, hfail⟩ := MonitorPage.submitRegistrationWith_outcome gateway s hsamples hname
  have hiff := uploadFrom_succeeds_iff gateway s.ui.speakerName 0 s.ui.samples
  rw [hsamples] at hiff
  simp only [Nat.zero_add] at hiff
  constructor
  · intro hall
    obtain ⟨h1, h2⟩ := hok (hiff.mpr hall)
    rw [h1]
    exact ⟨rfl, rfl, rfl, h2⟩
  · rintro ⟨j, hj, msg, hmsg⟩
    have hne : (uploadFrom gateway s.ui.speakerName 0 s.ui.samples).2 = false := by
      rcases hb : (uploadFrom gateway s.ui.speakerName 0 s.ui.samples).2 with _ | _
      · rfl
      · obtain ⟨v, hv⟩ := hiff.mp hb j hj
        rw [hmsg] at hv
        cases hv
    obtain ⟨h1, h2⟩ := hfail hne
    exact ⟨h1, by rw [h1], by rw [h1], h2⟩

/-- C11 at the draft of "Alice": with every upload accepted the draft is reset and the roster
is requested again; with the upload of sample 2 rejected the draft is kept and the roster is
not requested. -/
theorem C11_witness :
    ((MonitorPage.submitRegistrationWith acceptAll MonitorPage.aliceDraft).ui.speakerName = ""
      ∧ (MonitorPage.submitRegistrationWith acceptAll MonitorPage.aliceDraft).ui.samples = []
      ∧ (MonitorPage.submitRegistrationWith acceptAll MonitorPage.aliceDraft).ui.currentSample = 1
      ∧ (MonitorPage.submitRegistrationWith acceptAll MonitorPage.aliceDraft).loadCalls
          = MonitorPage.aliceDraft.loadCalls + 1)
    ∧ ((MonitorPage.submitRegistrationWith rejectSecond MonitorPage.aliceDraft).ui
          = MonitorPage.aliceDraft.ui
      ∧ (MonitorPage.submitRegistrationWith rejectSecond MonitorPage.aliceDraft).loadCalls
          = MonitorPage.aliceDraft.loadCalls) :=
  ⟨(C11_submission_outcome acceptAll MonitorPage.aliceDraft rfl (by decide)).1
      (fun _ _ => ⟨(), rfl⟩),
    ((C11_submission_outcome rejectSecond MonitorPage.aliceDraft rfl (by decide)).2
      ⟨1, by decide, "Registration failed", rfl⟩).1,
    ((C11_submission_outcome rejectSecond MonitorPage.aliceDraft rfl (by decide)).2
      ⟨1, by decide, "Registration failed", rfl⟩).2.2.2⟩

/-! ## Enrollment: one completed capture session -/

namespace MonitorPage

theorem run_append {s : MonitorSys} (es fs : List MonitorEvent) :
    run s (es ++ fs) = (run s es).bind (fun t => run t fs) := by
  induction es generalizing s with
  | nil => rfl
  | cons e es ih =>
    simp only [List.cons_append, run]
    rcases step s e with _ | u
    · rfl
    · exact ih

theorem untouched_step {s t : MonitorSys} {e : MonitorEvent} (h : step s e = some t)
    (hu : touchesDraft e = false) :
    t.ui.samples = s.ui.samples ∧ t.ui.currentSample = s.ui.currentSample
      ∧ t.env.emitted = s.env.emitted := by
  obtain ⟨hen, rfl⟩ := step_eq_some_mon h
  cases e with
  | clickView => exact ⟨rfl, rfl, rfl⟩
  | clickRegister => cases hu
  | typeName v => exact ⟨rfl, rfl, rfl⟩
  | clickStart => exact ⟨rfl, rfl, rfl⟩
  | clickStop => cases hu
  | clickSubmit =>
    show (submitRegistration s).ui.samples = _ ∧ (submitRegistration s).ui.currentSample = _
      ∧ (submitRegistration s).env.emitted = _
    unfold submitRegistration
    split
    · exact ⟨rfl, rfl, rfl⟩
    · split <;> exact ⟨rfl, rfl, rfl⟩
  | clickRefresh => exact ⟨rfl, rfl, rfl⟩
  | clickRetrain confirmed =>
    show (handleRetrain confirmed s).ui.samples = _
      ∧ (handleRetrain confirmed s).ui.currentSample = _
      ∧ (handleRetrain confirmed s).env.emitted = _
    unfold handleRetrain
    split <;> exact ⟨rfl, rfl, rfl⟩
  | granted d =>
    show (startRecordingResolved d s).ui.samples = _
      ∧ (startRecordingResolved d s).ui.currentSample = _
      ∧ (startRecordingResolved d s).env.emitted = _
    unfold startRecordingResolved
    dsimp only
    split <;> exact ⟨rfl, rfl, rfl⟩
  | rejected => exact ⟨rfl, rfl, rfl⟩
  | dataavailable k size =>
    show (ondataavailable k size s).ui.samples = _
      ∧ (ondataavailable k size s).ui.currentSample = _
      ∧ (ondataavailable k size s).env.emitted = _
    unfold ondataavailable
    split <;> exact ⟨rfl, rfl, rfl⟩
  | stopped k => cases hu
  | tick k => exact ⟨rfl, rfl, rfl⟩
  | frame d =>
    show (animationFrame d s).ui.samples = _ ∧ (animationFrame d s).ui.currentSample = _
      ∧ (animationFrame d s).env.emitted = _
    unfold animationFrame
    split <;> exact ⟨rfl, rfl, rfl⟩
  | uploadsSettled i gateway => cases hu
  | speakersSettled f =>
    show (loadSpeakersSettled (getRegisteredSpeakers f) s).ui.samples = _
      ∧ (loadSpeakersSettled (getRegisteredSpeakers f) s).ui.currentSample = _
      ∧ (loadSpeakersSettled (getRegisteredSpeakers f) s).env.emitted = _
    unfold loadSpeakersSettled
    split <;> exact ⟨rfl, rfl, rfl⟩
  | retrainSettled f => exact ⟨rfl, rfl, rfl⟩

theorem run_untouched {s t : MonitorSys} (es : List MonitorEvent)
    (hes : ∀ e ∈ es, touchesDraft e = false) (h : run s es = some t) :
    t.ui.samples = s.ui.samples ∧ t.ui.currentSample = s.ui.currentSample
      ∧ t.env.emitted = s.env.emitted := by
  induction es generalizing s with
  | nil =>
    simp only [run, Option.some.injEq] at h
    subst h
    exact ⟨rfl, rfl, rfl⟩
  | cons e es ih =>
    simp only [run] at h
    rcases hstep : step s e with _ | u
    · simp [hstep] at h
    · rw [hstep] at h
      obtain ⟨f1, f2, f3⟩ := untouched_step hstep (hes e (List.mem_cons_self _ _))
      obtain ⟨i1, i2, i3⟩ := ih (fun x hx => hes x (List.mem_cons_of_mem _ hx)) h
      exact ⟨i1.trans f1, i2.trans f2, i3.trans f3⟩

theorem stopRecording_draft {s : MonitorSys} {k : Nat} (h1 : s.ui.mediaRecorderRef = some k)
    (h2 : s.ui.isRecording = true) (h3 : k ∈ s.env.recording) :
    (stopRecording s).ui.samples = s.ui.samples
    ∧ (stopRecording s).ui.currentSample
        = (if s.ui.currentSample < 3 then s.ui.currentSample + 1 else s.ui.currentSample)
    ∧ (stopRecording s).env.emitted = s.env.emitted := by
  have hc := congrArg Capture.env (capture_stopRecording_mon h1 h2 h3)
  have hf := (Env.halted_fields s.env k s.ui.timerRef s.ui.animationRef
    s.ui.audioContextRef).2.2.2.2.2.1
  refine ⟨?_, ?_, ?_⟩
  · simp only [stopRecording, h1, h2, h3, if_true]
  · simp only [stopRecording, h1, h2, h3, if_true]
  · rw [← hf]
    exact congrArg Env.emitted hc

end MonitorPage

theorem MonitorPage.index_le_three {s : MonitorSys} (hs : MonitorPage.Reachable s) :
    1 ≤ s.ui.currentSample ∧ s.ui.currentSample ≤ 3 := by
  induction hs with
  | init => exact ⟨Nat.le_refl 1, by decide⟩
  | step e _ hstep ih => exact MonitorPage.index_bounds_step hstep ih

set_option maxRecDepth 100000 in
/-- C12 (counterexample): the enrollment page holds one sample and records the second
(`currentSample` 2); the recording is stopped, the register button, which is always
rendered, is clicked before the completion event, and then the recorder completes: the
samples are the new blob alone, not the earlier sample followed by it, and `currentSample`
is 1, not `min (2 + 1) 3`. -/
theorem C12_counterexample :
    ∃ s t, MonitorPage.run MonitorPage.initSys
        [.clickRegister, .typeName "Alice", .clickStart, .granted silence, .clickStop,
          .stopped 0, .clickStart, .granted silence] = some s
      ∧ s.ui.isRecording = true ∧ s.ui.mediaRecorderRef = some 1
      ∧ s.ui.samples.length = 1 ∧ s.ui.currentSample = 2
      ∧ MonitorPage.run (MonitorPage.stopRecording s) [.clickRegister, .stopped 1] = some t
      ∧ t.ui.samples.length = 1 ∧ t.ui.currentSample = 1
      ∧ t.ui.samples.length ≠ s.ui.samples.length + 1
      ∧ t.ui.currentSample ≠ min (s.ui.currentSample + 1) 3 :=
  ⟨_, _, rfl, rfl, rfl, rfl, rfl, rfl, rfl, rfl, by decide, by decide⟩

/-- C12 (amended): in a reachable state of the enrollment page that is recording, with
`currentSample = n` and samples `S`: `stopRecording`, then any events that neither reset the
draft nor stop a recording nor complete a recorder (chunk deliveries, roster and retrain
replies, input, device grants, frames), then the completion event of the stopped recorder
give samples `S` followed by the one blob that was emitted for that session, and
`currentSample = min (n + 1) 3`; the completion event can always follow the stop. -/
theorem C12_completed_session_appends (s : MonitorSys) (hs : MonitorPage.Reachable s)
    (hrec : s.ui.isRecording = true) :
    ∃ k, s.ui.mediaRecorderRef = some k
      ∧ (∃ t, MonitorPage.run (MonitorPage.stopRecording s) [.stopped k] = some t)
      ∧ ∀ (es : List MonitorEvent) (t : MonitorSys),
          (∀ e ∈ es, MonitorPage.touchesDraft e = false) →
          MonitorPage.run (MonitorPage.stopRecording s) (es ++ [.stopped k]) = some t →
          ∃ artifact : Blob,
            t.env.emitted = s.env.emitted ++ [(k, artifact)]
            ∧ t.ui.samples = s.ui.samples ++ [artifact]
            ∧ t.ui.currentSample = min (s.ui.currentSample + 1) 3 := by
  obtain ⟨k, h1, h2, _, _⟩ :=
    Capture.stop_of_inv (MonitorPage.inv_of_reachable_mon hs) hrec
  have h1 : s.ui.mediaRecorderRef = some k := h1
  have h2 : k ∈ s.env.recording := h2
  have hk : k ∈ (MonitorPage.stopRecording s).env.finalizing := by
    obtain ⟨k2, e1, _, e3, _⟩ := MonitorPage.stop_of_reachable_mon hs hrec
    have hkk : k2 = k := by
      rw [h1] at e1
      exact (Option.some.inj e1).symm
    subst hkk
    exact List.count_pos_iff.mp (by rw [e3.2.1]; exact Nat.one_pos)
  obtain ⟨d1, d2, d3⟩ := MonitorPage.stopRecording_draft h1 hrec h2
  have hle := (MonitorPage.index_le_three hs).2
  refine ⟨k, h1, ?_, ?_⟩
  · refine ⟨MonitorPage.onstop k (MonitorPage.stopRecording s), ?_⟩
    simp [MonitorPage.run, MonitorPage.step, MonitorPage.enabled, MonitorPage.handle, hk]
  · intro es t hes hrun
    rw [MonitorPage.run_append] at hrun
    rcases hmid : MonitorPage.run (MonitorPage.stopRecording s) es with _ | u
    · simp [hmid] at hrun
    · rw [hmid] at hrun
      obtain ⟨u2, u3, u1⟩ := MonitorPage.run_untouched es hes hmid
      simp only [Option.some_bind, MonitorPage.run] at hrun
      rcases hstep : MonitorPage.step u (.stopped k) with _ | w
      · simp [hstep] at hrun
      · rw [hstep] at hrun
        simp only [Option.some_bind, Option.some.injEq] at hrun
        subst hrun
        obtain ⟨_, hw⟩ := MonitorPage.step_eq_some_mon hstep
        refine ⟨u.ui.chunksRef, ?_, ?_, ?_⟩
        · rw [hw]
          show u.env.emitted ++ [(k, u.ui.chunksRef)] = _
          rw [u1, d3]
        · rw [hw]
          show u.ui.samples ++ [u.ui.chunksRef] = _
          rw [u2, d1]
        · rw [hw]
          show u.ui.currentSample = _
          rw [u3, d2]
          split <;> omega

set_option maxRecDepth 100000 in
/-- C12 (amended) at the first session of the enrollment page: stop, one chunk of size 5, the
reply to the roster request, completion. -/
theorem C12_witness :
    ∃ t, MonitorPage.run (MonitorPage.stopRecording MonitorPage.recordingSys)
        [.dataavailable 0 5, .speakersSettled rosterOfAnn, .stopped 0] = some t
      ∧ t.ui.samples = [[{ session := 0, size := 5 }]] ∧ t.ui.currentSample = 2 := by
  obtain ⟨k, hk, _, h⟩ := C12_completed_session_appends MonitorPage.recordingSys
    MonitorPage.recordingSys_reachable_mon rfl
  have hk0 : k = 0 := (Option.some.inj hk).symm
  subst hk0
  refine ⟨_, rfl, rfl, ?_⟩
  obtain ⟨artifact, _, _, h3⟩ :=
    h [.dataavailable 0 5, .speakersSettled rosterOfAnn] _
      (by simp [MonitorPage.touchesDraft]) rfl
  exact h3

/-! ## Enrollment: a fourth sample -/

set_option maxRecDepth 100000 in
/-- C13 (failing run): with two samples collected the third recording is stopped, and before
its completion event has appended the sample the start button is rendered again
(`samples.length` is still 2) and clicked; the fourth recording is granted, the third
completes (three samples), the fourth is stopped and completes: four samples.  In that
state neither the start button nor the submit button is rendered.  A second run reaches
four samples through two clicks on the start button while the device request is pending. -/
theorem C13_fourth_sample :
    (MonitorPage.run MonitorPage.initSys
      [.clickRegister, .typeName "Alice",
        .clickStart, .granted silence, .clickStop, .stopped 0,
        .clickStart, .granted silence, .clickStop, .stopped 1,
        .clickStart, .granted silence, .clickStop,
        .clickStart, .granted silence, .stopped 2, .clickStop, .stopped 3]).map
      (fun s => (s.ui.samples.length, s.ui.currentSample,
        MonitorPage.enabled s .clickStart, MonitorPage.enabled s .clickSubmit))
      = some (4, 3, false, false)
    ∧ (MonitorPage.run MonitorPage.initSys
      [.clickRegister, .typeName "Alice",
        .clickStart, .granted silence, .clickStop, .stopped 0,
        .clickStart, .granted silence, .clickStop, .stopped 1,
        .clickStart, .clickStart, .granted silence, .clickStop, .stopped 2,
        .granted silence, .clickStop, .stopped 3]).map
      (fun s => s.ui.samples.length) = some 4 := by
  exact ⟨rfl, rfl⟩

/-! ## Enrollment: the subject name -/

namespace MonitorPage

/-- What one transition does to the name: nothing; a reset of the draft; or an input into
the name field, which is rendered only in register mode while there are no samples. -/
theorem name_step {s t : MonitorSys} {e : MonitorEvent} (h : step s e = some t) :
    t.ui.speakerName = s.ui.speakerName
    ∨ (resetsDraft e = true ∧ t.ui.speakerName = "" ∧ t.ui.samples = [])
    ∨ (∃ v, e = MonitorEvent.typeName v ∧ s.ui.samples.length = 0 ∧ s.ui.mode = .register
        ∧ t.ui.speakerName = v) := by
  obtain ⟨hen, rfl⟩ := step_eq_some_mon h
  cases e with
  | clickView => exact Or.inl rfl
  | clickRegister => exact Or.inr (Or.inl ⟨rfl, rfl, rfl⟩)
  | typeName v =>
    refine Or.inr (Or.inr ⟨v, rfl, ?_, ?_, rfl⟩)
    · simp only [enabled, Bool.and_eq_true, beq_iff_eq] at hen
      exact hen.2
    · simp only [enabled, Bool.and_eq_true, beq_iff_eq] at hen
      exact hen.1
  | clickStart => exact Or.inl rfl
  | clickStop =>
    refine Or.inl ?_
    show (stopRecording s).ui.speakerName = _
    unfold stopRecording
    split
    · split <;> rfl
    · rfl
  | clickSubmit =>
    refine Or.inl ?_
    show (submitRegistration s).ui.speakerName = _
    unfold submitRegistration
    split
    · rfl
    · split <;> rfl
  | clickRefresh => exact Or.inl rfl
  | clickRetrain confirmed =>
    refine Or.inl ?_
    show (handleRetrain confirmed s).ui.speakerName = _
    unfold handleRetrain
    split <;> rfl
  | granted d =>
    refine Or.inl ?_
    show (startRecordingResolved d s).ui.speakerName = _
    unfold startRecordingResolved
    dsimp only
    split <;> rfl
  | rejected => exact Or.inl rfl
  | dataavailable k size =>
    refine Or.inl ?_
    show (ondataavailable k size s).ui.speakerName = _
    unfold ondataavailable
    split <;> rfl
  | stopped k => exact Or.inl rfl
  | tick k => exact Or.inl rfl
  | frame d =>
    refine Or.inl ?_
    show (animationFrame d s).ui.speakerName = _
    unfold animationFrame
    split <;> rfl
  | uploadsSettled i gateway =>
    show _ ∨ _ ∨ _
    simp only [handle, submitRegistrationSettled]
    split
    · exact Or.inl rfl
    · split
      · exact Or.inr (Or.inl ⟨rfl, rfl, rfl⟩)
      · exact Or.inl rfl
  | speakersSettled f =>
    refine Or.inl ?_
    show (loadSpeakersSettled (getRegisteredSpeakers f) s).ui.speakerName = _
    unfold loadSpeakersSettled
    split <;> rfl
  | retrainSettled f => exact Or.inl rfl

end MonitorPage

set_option maxRecDepth 100000 in
/-- C14 (counterexample): register mode, name "Alice", start, grant; while the first
recording runs there are no samples, so the name input is still rendered, and the name is
cleared; stop and completion then give a draft with one sample and a name that is empty and
is not the name entered when the recording was started. -/
theorem C14_counterexample :
    ∃ s, MonitorPage.run MonitorPage.initSys
        [.clickRegister, .typeName "Alice", .clickStart, .granted silence, .typeName "",
          .clickStop, .stopped 0] = some s
      ∧ 1 ≤ s.ui.samples.length ∧ blank s.ui.speakerName = true
      ∧ s.ui.speakerName ≠ "Alice" :=
  ⟨_, rfl, by decide, by decide, by decide⟩

/-- C14 (amended): the start button can be clicked on a draft without samples only when the
name is non-empty after trimming; the name field takes input only in register mode while
the draft has no samples; and from a state with at least one sample no transition changes
the name, except a reset of the draft, which empties name and samples. -/
theorem C14_name_fixed_once_sample_exists (s t : MonitorSys) (e : MonitorEvent)
    (hstep : MonitorPage.step s e = some t) :
    (e = MonitorEvent.clickStart → s.ui.samples.length = 0 → blank s.ui.speakerName = false)
    ∧ ((∃ v, e = MonitorEvent.typeName v) → s.ui.samples.length = 0 ∧ s.ui.mode = .register)
    ∧ (1 ≤ s.ui.samples.length →
        t.ui.speakerName = s.ui.speakerName
        ∨ (MonitorPage.resetsDraft e = true ∧ t.ui.speakerName = "" ∧ t.ui.samples = [])) := by
  refine ⟨?_, ?_, ?_⟩
  · intro he h0
    subst he
    obtain ⟨hen, _⟩ := MonitorPage.step_eq_some_mon hstep
    simp only [MonitorPage.enabled, Bool.and_eq_true, Bool.not_eq_true', Bool.and_eq_false_iff,
      beq_iff_eq, decide_eq_true_eq, beq_eq_false_iff_ne] at hen
    rcases hen.2 with hb | hb
    · exact hb
    · exact absurd h0 hb
  · rintro ⟨v, rfl⟩
    rcases MonitorPage.name_step hstep with _ | ⟨hr, _, _⟩ | ⟨w, _, h0, hm, _⟩
    · obtain ⟨hen, _⟩ := MonitorPage.step_eq_some_mon hstep
      simp only [MonitorPage.enabled, Bool.and_eq_true, beq_iff_eq] at hen
      exact ⟨hen.2, hen.1⟩
    · cases hr
    · exact ⟨h0, hm⟩
  · intro h1
    rcases MonitorPage.name_step hstep with h | h | ⟨v, _, h0, _, _⟩
    · exact Or.inl h
    · exact Or.inr h
    · omega

set_option maxRecDepth 100000 in
/-- C14 (amended) at the draft with one sample and name "Alice": a click on the start button
leaves the name as it is. -/
theorem C14_witness :
    (MonitorPage.handle MonitorPage.firstSampleSys .clickStart).ui.speakerName = "Alice" := by
  have h := (C14_name_fixed_once_sample_exists MonitorPage.firstSampleSys
    (MonitorPage.handle MonitorPage.firstSampleSys .clickStart) .clickStart rfl).2.2
    (by decide)
  rcases h with h | ⟨hr, _, _⟩
  · rw [h]
    rfl
  · cases hr

/-! ## Retrain trigger -/

namespace MonitorPage

/-- What one transition does to `isRetraining` and to the unsettled retrain calls: nothing; a
confirmed click while the flag is false; or the settling of a call, which clears the flag. -/
theorem retrain_step {s t : MonitorSys} {e : MonitorEvent} (h : step s e = some t) :
    (t.ui.isRetraining = s.ui.isRetraining ∧ t.retraining = s.retraining)
    ∨ (s.ui.isRetraining = false ∧ t.ui.isRetraining = true
        ∧ t.retraining = s.retraining + 1)
    ∨ (0 < s.retraining ∧ t.ui.isRetraining = false ∧ t.retraining = s.retraining - 1) := by
  obtain ⟨hen, rfl⟩ := step_eq_some_mon h
  cases e with
  | clickView => exact Or.inl ⟨rfl, rfl⟩
  | clickRegister => exact Or.inl ⟨rfl, rfl⟩
  | typeName v => exact Or.inl ⟨rfl, rfl⟩
  | clickStart => exact Or.inl ⟨rfl, rfl⟩
  | clickStop =>
    refine Or.inl ?_
    show (stopRecording s).ui.isRetraining = _ ∧ (stopRecording s).retraining = _
    unfold stopRecording
    split
    · split <;> exact ⟨rfl, rfl⟩
    · exact ⟨rfl, rfl⟩
  | clickSubmit =>
    refine Or.inl ?_
    show (submitRegistration s).ui.isRetraining = _ ∧ (submitRegistration s).retraining = _
    unfold submitRegistration
    split
    · exact ⟨rfl, rfl⟩
    · split <;> exact ⟨rfl, rfl⟩
  | clickRefresh => exact Or.inl ⟨rfl, rfl⟩
  | clickRetrain confirmed =>
    have hflag : s.ui.isRetraining = false := by
      simp only [enabled, Bool.and_eq_true, Bool.not_eq_true', Bool.or_eq_false_iff] at hen
      exact hen.2.1
    cases confirmed with
    | false => exact Or.inl ⟨rfl, rfl⟩
    | true => exact Or.inr (Or.inl ⟨hflag, rfl, rfl⟩)
  | granted d =>
    refine Or.inl ?_
    show (startRecordingResolved d s).ui.isRetraining = _
      ∧ (startRecordingResolved d s).retraining = _
    unfold startRecordingResolved
    dsimp only
    split <;> exact ⟨rfl, rfl⟩
  | rejected => exact Or.inl ⟨rfl, rfl⟩
  | dataavailable k size =>
    refine Or.inl ?_
    show (ondataavailable k size s).ui.isRetraining = _
      ∧ (ondataavailable k size s).retraining = _
    unfold ondataavailable
    split <;> exact ⟨rfl, rfl⟩
  | stopped k => exact Or.inl ⟨rfl, rfl⟩
  | tick k => exact Or.inl ⟨rfl, rfl⟩
  | frame d =>
    refine Or.inl ?_
    show (animationFrame d s).ui.isRetraining = _ ∧ (animationFrame d s).retraining = _
    unfold animationFrame
    split <;> exact ⟨rfl, rfl⟩
  | uploadsSettled i gateway =>
    refine Or.inl ?_
    simp only [handle, submitRegistrationSettled]
    split
    · exact ⟨rfl, rfl⟩
    · split <;> exact ⟨rfl, rfl⟩
  | speakersSettled f =>
    refine Or.inl ?_
    show (loadSpeakersSettled (getRegisteredSpeakers f) s).ui.isRetraining = _
      ∧ (loadSpeakersSettled (getRegisteredSpeakers f) s).retraining = _
    unfold loadSpeakersSettled
    split <;> exact ⟨rfl, rfl⟩
  | retrainSettled f =>
    have hpos : 0 < s.retraining := by
      simpa [enabled] using hen
    exact Or.inr (Or.inr ⟨hpos, rfl, rfl⟩)

theorem retraining_of_reachable {s : MonitorSys} (hs : Reachable s) :
    s.retraining = (if s.ui.isRetraining = true then 1 else 0) := by
  induction hs with
  | init => rfl
  | @step s0 t0 e _ hstep ih =>
    rcases retrain_step hstep with ⟨h1, h2⟩ | ⟨h0, h1, h2⟩ | ⟨h0, h1, h2⟩
    · rw [h1, h2]
      exact ih
    · rw [h0] at ih
      rw [h1, h2, ih]
      rfl
    · rw [h1, h2, ih]
      split
      · rfl
      · rename_i hf
        rw [ih] at h0
        simp [hf] at h0

end MonitorPage

set_option maxRecDepth 100000 in
/-- C15 (counterexample): on the monitor page the roster is loaded and a retrain is
confirmed; the user switches to the record page and back while that call is unsettled; the
page is mounted afresh with `isRetraining` false, so once the roster is loaded the trigger
is enabled although one retrain call is outstanding, and a second confirmed click makes two
outstanding calls. -/
theorem C15_counterexample :
    ∃ w m, ((Site.init.navigate .monitor).monitorRun
          [.speakersSettled rosterOfAnn, .clickRetrain true]).bind
        (fun v => ((v.navigate .record).navigate .monitor).monitorRun
          [.speakersSettled rosterOfAnn]) = some w
      ∧ w.app = .monitor m ∧ w.outstandingRetrains = 1
      ∧ MonitorPage.enabled m (.clickRetrain true) = true
      ∧ (w.monitorRun [.clickRetrain true]).map Site.outstandingRetrains = some 2 :=
  ⟨_, _, rfl, rfl, rfl, rfl, rfl⟩

/-- C15 (amended): while the monitor page stays mounted, at most one retrain call of the page
is unsettled and `isRetraining` is true exactly while one is; while it is true the trigger
cannot be invoked; settling the call, with success or failure, sets it to false; and while
it is false the trigger, rendered in view mode, is enabled exactly when the roster is not
empty. -/
theorem C15_retrain_trigger (s : MonitorSys) (hs : MonitorPage.Reachable s) :
    s.retraining ≤ 1
    ∧ (s.ui.isRetraining = true ↔ s.retraining = 1)
    ∧ (s.ui.isRetraining = true → ∀ c, MonitorPage.enabled s (.clickRetrain c) = false)
    ∧ (∀ f, (MonitorPage.handle s (.retrainSettled f)).ui.isRetraining = false)
    ∧ (s.ui.isRetraining = false → s.ui.mode = .view →
        ∀ c, (MonitorPage.enabled s (.clickRetrain c) = true ↔ s.ui.registeredSpeakers ≠ [])) := by
  have hinv := MonitorPage.retraining_of_reachable hs
  refine ⟨?_, ?_, ?_, fun _ => rfl, ?_⟩
  · rw [hinv]
    split <;> omega
  · rw [hinv]
    constructor
    · intro h
      simp [h]
    · intro h
      by_contra hf
      simp [hf] at h
  · intro h c
    simp [MonitorPage.enabled, h]
  · intro h hm c
    simp [MonitorPage.enabled, h, hm]

set_option maxRecDepth 100000 in
theorem MonitorPage.retrainingSys_reachable : MonitorPage.Reachable MonitorPage.retrainingSys :=
  MonitorPage.reachable_of_run_mon MonitorPage.Reachable.init
    [.speakersSettled rosterOfAnn, .clickRetrain true] rfl

/-- C15 (amended) at the monitor page with a confirmed retrain call unsettled: one call is
outstanding, the flag is true and a further click is not possible. -/
theorem C15_witness :
    MonitorPage.retrainingSys.retraining ≤ 1
    ∧ MonitorPage.retrainingSys.retraining = 1
    ∧ MonitorPage.enabled MonitorPage.retrainingSys (.clickRetrain true) = false :=
  ⟨(C15_retrain_trigger MonitorPage.retrainingSys MonitorPage.retrainingSys_reachable).1,
    (C15_retrain_trigger MonitorPage.retrainingSys MonitorPage.retrainingSys_reachable).2.1.mp
      rfl,
    (C15_retrain_trigger MonitorPage.retrainingSys MonitorPage.retrainingSys_reachable).2.2.1
      rfl true⟩

/-! ## Level sampling: mean and range -/

theorem foldl_add_eq_sum (rest : List Nat) (a : Nat) :
    rest.foldl (fun x y => x + y) a = a + rest.sum := by
  induction rest generalizing a with
  | nil => simp
  | cons b rest ih =>
    simp only [List.foldl_cons, List.sum_cons]
    rw [ih]
    omega

theorem reduceSum_eq_sum {d : List Nat} (h : d ≠ []) : reduceSum d = some d.sum := by
  cases d with
  | nil => exact absurd rfl h
  | cons a rest =>
    simp only [reduceSum, List.sum_cons]
    rw [foldl_add_eq_sum]

theorem sum_le_of_bytes (d : List Nat) (h : ∀ b ∈ d, b ≤ 255) :
    d.sum ≤ 255 * d.length ∧ (d.sum = 255 * d.length ↔ ∀ b ∈ d, b = 255) := by
  induction d with
  | nil => simp
  | cons a rest ih =>
    have ha : a ≤ 255 := h a (List.mem_cons_self _ _)
    obtain ⟨i1, i2⟩ := ih (fun b hb => h b (List.mem_cons_of_mem _ hb))
    simp only [List.sum_cons, List.length_cons, List.forall_mem_cons]
    refine ⟨by omega, ?_⟩
    constructor
    · intro hs
      have hr : rest.sum = 255 * rest.length := by omega
      exact ⟨by omega, i2.mp hr⟩
    · rintro ⟨h255, hrest⟩
      have hr := i2.mpr hrest
      omega

/-- C16: for a buffer of 128 bins with magnitudes from 0 to 255, `updateLevel` returns a
level (the `reduce` call does not throw, the buffer is never empty); the level is the mean of
the bins divided by 255, that is the sum divided by `128 * 255`; it lies between 0 and 1, is 0
exactly when every bin is 0 and 1 exactly when every bin is 255; and a frame with a pending
sampling loop stores it as the audio level, on both pages. -/
theorem C16_level_is_normalised_mean (d : List Nat) (h : validBins d = true) :
    ∃ level : ℚ, updateLevel d = some level
      ∧ level = ((d.sum : ℚ) / (d.length : ℚ)) / 255
      ∧ level = (d.sum : ℚ) / (128 * 255)
      ∧ 0 ≤ level ∧ level ≤ 1
      ∧ (level = 0 ↔ ∀ b ∈ d, b = 0)
      ∧ (level = 1 ↔ ∀ b ∈ d, b = 255)
      ∧ (∀ s : RecordSys, s.env.frames ≠ [] →
          (RecordPage.animationFrame d s).ui.audioLevel = level)
      ∧ (∀ s : MonitorSys, s.env.frames ≠ [] →
          (MonitorPage.animationFrame d s).ui.audioLevel = level) := by
  have hlen : d.length = 128 := validBins_length h
  have hbytes : ∀ b ∈ d, b ≤ 255 := by
    simp only [validBins, Bool.and_eq_true, List.all_eq_true, decide_eq_true_eq] at h
    exact h.2
  have hne : d ≠ [] := by
    intro hnil
    rw [hnil] at hlen
    simp at hlen
  obtain ⟨hle, hmax⟩ := sum_le_of_bytes d hbytes
  rw [hlen] at hle hmax
  have hlevel : updateLevel d = some ((d.sum : ℚ) / (128 * 255)) := by
    unfold updateLevel
    rw [reduceSum_eq_sum hne]
    simp only [Option.map_some', frequencyBinCount, fftSize]
    norm_num
    ring
  have hsumq : (d.sum : ℚ) ≤ 255 * 128 := by exact_mod_cast hle
  refine ⟨(d.sum : ℚ) / (128 * 255), hlevel, ?_, rfl, ?_, ?_, ?_, ?_, ?_, ?_⟩
  · rw [hlen]
    norm_num
    ring
  · positivity
  · rw [div_le_one (by norm_num)]
    linarith
  · rw [div_eq_zero_iff]
    constructor
    · rintro (h0 | h0)
      · have h0n : d.sum = 0 := by exact_mod_cast h0
        exact fun b hb => List.sum_eq_zero_iff.mp h0n b hb
      · norm_num at h0
    · intro hall
      left
      have h0n : d.sum = 0 := List.sum_eq_zero_iff.mpr hall
      exact_mod_cast h0n
  · rw [div_eq_one_iff_eq (by norm_num)]
    constructor
    · intro h1
      have h1n : d.sum = 255 * 128 := by
        have : (d.sum : ℚ) = ((255 * 128 : ℕ) : ℚ) := by
          rw [h1]
          norm_num
        exact_mod_cast this
      exact hmax.mp h1n
    · intro hall
      have h1n := hmax.mpr hall
      rw [h1n]
      norm_num
  · intro s hs
    rcases hlast : s.env.frames.getLast? with _ | j
    · exact absurd (List.getLast?_eq_none_iff.mp hlast) hs
    · simp only [RecordPage.animationFrame, hlast, hlevel]
  · intro s hs
    rcases hlast : s.env.frames.getLast? with _ | j
    · exact absurd (List.getLast?_eq_none_iff.mp hlast) hs
    · simp only [MonitorPage.animationFrame, hlast, hlevel]

set_option maxRecDepth 100000 in
/-- C16 at the silent buffer: the level is 0. -/
theorem C16_witness : updateLevel silence = some 0 := by
  obtain ⟨level, h1, _, _, _, _, h0, _⟩ := C16_level_is_normalised_mean silence rfl
  have hz : level = 0 := h0.mpr (fun b hb => List.eq_of_mem_replicate hb)
  rw [h1, hz]

/-! ## Rejected device request -/

/-- C17: when the device request is rejected, the `catch` branch of `startRecording` changes
no component state (status and `isRecording` as before, so a page that was not recording is
not recording) and acquires nothing: tracks, recorders, audio contexts, intervals and frame
requests in the browser are the same; a click followed by the rejection gives back exactly
the state before the click.  This holds on both pages. -/
theorem C17_rejected_request_acquires_nothing (s : RecordSys) (m : MonitorSys) :
    (RecordPage.handle s .rejected).ui = s.ui
    ∧ (RecordPage.handle s .rejected).ui.status = s.ui.status
    ∧ (RecordPage.handle s .rejected).ui.isRecording = s.ui.isRecording
    ∧ (RecordPage.handle s .rejected).env.tracks = s.env.tracks
    ∧ (RecordPage.handle s .rejected).env.recording = s.env.recording
    ∧ (RecordPage.handle s .rejected).env.contexts = s.env.contexts
    ∧ (RecordPage.handle s .rejected).env.timers = s.env.timers
    ∧ (RecordPage.handle s .rejected).env.frames = s.env.frames
    ∧ RecordPage.startRecordingRejected (RecordPage.startRecording s) = s
    ∧ (MonitorPage.handle m .rejected).ui = m.ui
    ∧ (MonitorPage.handle m .rejected).ui.isRecording = m.ui.isRecording
    ∧ (MonitorPage.handle m .rejected).env.tracks = m.env.tracks
    ∧ (MonitorPage.handle m .rejected).env.recording = m.env.recording
    ∧ (MonitorPage.handle m .rejected).env.contexts = m.env.contexts
    ∧ (MonitorPage.handle m .rejected).env.timers = m.env.timers
    ∧ (MonitorPage.handle m .rejected).env.frames = m.env.frames
    ∧ MonitorPage.startRecordingRejected (MonitorPage.startRecording m) = m := by
  refine ⟨rfl, rfl, rfl, rfl, rfl, rfl, rfl, rfl, ?_, rfl, rfl, rfl, rfl, rfl, rfl, rfl, ?_⟩
  · simp [RecordPage.startRecordingRejected, RecordPage.startRecording, Env.rejectUserMedia,
      Env.getUserMedia]
  · simp [MonitorPage.startRecordingRejected, MonitorPage.startRecording, Env.rejectUserMedia,
      Env.getUserMedia]

/-! ## Binary64 rounding -/

theorem roundHalfEven_cases (q : ℚ) :
    (roundHalfEven q = ⌊q⌋ ∧ q - ⌊q⌋ ≤ 1 / 2) ∨ (roundHalfEven q = ⌊q⌋ + 1 ∧ 1 / 2 ≤ q - ⌊q⌋) := by
  unfold roundHalfEven
  split_ifs with h1 h2 h3
  · exact Or.inl ⟨rfl, le_of_lt h1⟩
  · exact Or.inr ⟨rfl, le_of_lt h2⟩
  · exact Or.inl ⟨rfl, not_lt.mp h2⟩
  · exact Or.inr ⟨rfl, not_lt.mp h1⟩

theorem roundHalfEven_error (q : ℚ) : |(roundHalfEven q : ℚ) - q| ≤ 1 / 2 := by
  have h1 := Int.floor_le q
  have h2 := Int.lt_floor_add_one q
  rcases roundHalfEven_cases q with ⟨h, hr⟩ | ⟨h, hr⟩
  · rw [h, abs_le]
    constructor <;> linarith
  · rw [h, abs_le]
    push_cast
    constructor <;> linarith

theorem roundHalfEven_eq {q : ℚ} {m : ℤ} (h : |(m : ℚ) - q| < 1 / 2) : roundHalfEven q = m := by
  have he := roundHalfEven_error q
  rw [abs_lt] at h
  rw [abs_le] at he
  have h1 : ((roundHalfEven q - m : ℤ) : ℚ) < 1 := by
    push_cast
    linarith
  have h2 : (-1 : ℚ) < ((roundHalfEven q - m : ℤ) : ℚ) := by
    push_cast
    linarith
  have h3 : roundHalfEven q - m < 1 := by exact_mod_cast h1
  have h4 : -1 < roundHalfEven q - m := by exact_mod_cast h2
  omega

theorem log2_bounds {x : ℚ} (hx : x ≠ 0) :
    (2 : ℚ) ^ ((Nat.log2 x.num.natAbs : ℤ) - (Nat.log2 x.den : ℤ) - 1) < |x|
    ∧ |x| < (2 : ℚ) ^ ((Nat.log2 x.num.natAbs : ℤ) - (Nat.log2 x.den : ℤ) + 1) := by
  have hnum : x.num.natAbs ≠ 0 := by
    simpa using hx
  have hden : x.den ≠ 0 := x.den_nz
  have a1 : 2 ^ Nat.log2 x.num.natAbs ≤ x.num.natAbs := Nat.log2_self_le hnum
  have a2 : x.num.natAbs < 2 ^ (Nat.log2 x.num.natAbs + 1) := Nat.lt_log2_self
  have b1 : 2 ^ Nat.log2 x.den ≤ x.den := Nat.log2_self_le hden
  have b2 : x.den < 2 ^ (Nat.log2 x.den + 1) := Nat.lt_log2_self
  have a1q : (2 : ℚ) ^ Nat.log2 x.num.natAbs ≤ (x.num.natAbs : ℚ) := by exact_mod_cast a1
  have a2q : (x.num.natAbs : ℚ) < (2 : ℚ) ^ (Nat.log2 x.num.natAbs + 1) := by exact_mod_cast a2
  have b1q : (2 : ℚ) ^ Nat.log2 x.den ≤ (x.den : ℚ) := by exact_mod_cast b1
  have b2q : (x.den : ℚ) < (2 : ℚ) ^ (Nat.log2 x.den + 1) := by exact_mod_cast b2
  have habs : |x| = (x.num.natAbs : ℚ) / (x.den : ℚ) := by
    have hcast : ((x.num.natAbs : ℕ) : ℚ) = |(x.num : ℚ)| := by
      rw [Nat.cast_natAbs, Int.cast_abs]
    conv_lhs => rw [← Rat.num_div_den x]
    rw [abs_div, hcast, Nat.abs_cast]
  have hdpos : (0 : ℚ) < x.den := by exact_mod_cast Nat.pos_of_ne_zero hden
  have p1 : (0 : ℚ) < (2 : ℚ) ^ Nat.log2 x.den := by positivity
  have p2 : (0 : ℚ) < (2 : ℚ) ^ (Nat.log2 x.den + 1) := by positivity
  rw [habs]
  constructor
  · rw [lt_div_iff₀ hdpos]
    have e1 : (2 : ℚ) ^ ((Nat.log2 x.num.natAbs : ℤ) - (Nat.log2 x.den : ℤ) - 1)
        = (2 : ℚ) ^ Nat.log2 x.num.natAbs / (2 : ℚ) ^ (Nat.log2 x.den + 1) := by
      rw [sub_sub, zpow_sub₀ (by norm_num : (2 : ℚ) ≠ 0)]
      norm_cast
    rw [e1, div_mul_eq_mul_div, div_lt_iff₀ p2]
    calc (2 : ℚ) ^ Nat.log2 x.num.natAbs * (x.den : ℚ)
        < (2 : ℚ) ^ Nat.log2 x.num.natAbs * (2 : ℚ) ^ (Nat.log2 x.den + 1) := by
          apply mul_lt_mul_of_pos_left b2q
          positivity
      _ ≤ (x.num.natAbs : ℚ) * (2 : ℚ) ^ (Nat.log2 x.den + 1) := by
          apply mul_le_mul_of_nonneg_right a1q
          positivity
  · rw [div_lt_iff₀ hdpos]
    have e1 : (2 : ℚ) ^ ((Nat.log2 x.num.natAbs : ℤ) - (Nat.log2 x.den : ℤ) + 1)
        = (2 : ℚ) ^ (Nat.log2 x.num.natAbs + 1) / (2 : ℚ) ^ Nat.log2 x.den := by
      rw [sub_add_eq_add_sub, zpow_sub₀ (by norm_num : (2 : ℚ) ≠ 0)]
      norm_cast
    rw [e1, div_mul_eq_mul_div, lt_div_iff₀ p1]
    calc (x.num.natAbs : ℚ) * (2 : ℚ) ^ Nat.log2 x.den
        < (2 : ℚ) ^ (Nat.log2 x.num.natAbs + 1) * (2 : ℚ) ^ Nat.log2 x.den := by
          apply mul_lt_mul_of_pos_right a2q p1
      _ ≤ (2 : ℚ) ^ (Nat.log2 x.num.natAbs + 1) * (x.den : ℚ) := by
          apply mul_le_mul_of_nonneg_left b1q
          positivity

theorem binaryExponent_spec {x : ℚ} (hx : x ≠ 0) :
    (2 : ℚ) ^ binaryExponent x ≤ |x| ∧ |x| < (2 : ℚ) ^ (binaryExponent x + 1) := by
  obtain ⟨h1, h2⟩ := log2_bounds hx
  unfold binaryExponent
  split_ifs with h
  · exact ⟨h, h2⟩
  · refine ⟨le_of_lt h1, ?_⟩
    rw [sub_add_cancel]
    exact not_le.mp h

theorem binaryExponent_eq {x : ℚ} {k : ℤ} (h1 : (2 : ℚ) ^ k ≤ |x|) (h2 : |x| < (2 : ℚ) ^ (k + 1)) :
    binaryExponent x = k := by
  have hx : x ≠ 0 := by
    intro h0
    rw [h0, abs_zero] at h1
    have : (0 : ℚ) < (2 : ℚ) ^ k := by positivity
    linarith
  obtain ⟨s1, s2⟩ := binaryExponent_spec hx
  have two : (1 : ℚ) < 2 := by norm_num
  have l1 : k < binaryExponent x + 1 := (zpow_lt_zpow_iff_right₀ two).mp (lt_of_le_of_lt h1 s2)
  have l2 : binaryExponent x < k + 1 := (zpow_lt_zpow_iff_right₀ two).mp (lt_of_le_of_lt s1 h2)
  omega


theorem ulp_pos (x : ℚ) : 0 < ulp x := by
  unfold ulp
  positivity

theorem roundDouble_error (x : ℚ) : |roundDouble x - x| ≤ ulp x / 2 := by
  unfold roundDouble
  split_ifs with h
  · rw [h, sub_zero, abs_zero]
    exact le_of_lt (half_pos (ulp_pos 0))
  · have hu := ulp_pos x
    have he := roundHalfEven_error (x / ulp x)
    have hx : x = x / ulp x * ulp x := by
      field_simp
    calc |(roundHalfEven (x / ulp x) : ℚ) * ulp x - x|
        = |((roundHalfEven (x / ulp x) : ℚ) - x / ulp x) * ulp x| := by
          congr 1
          rw [sub_mul, ← hx]
      _ = |(roundHalfEven (x / ulp x) : ℚ) - x / ulp x| * ulp x := by
          rw [abs_mul, abs_of_pos hu]
      _ ≤ 1 / 2 * ulp x := mul_le_mul_of_nonneg_right he (le_of_lt hu)
      _ = ulp x / 2 := by ring

theorem ulp_le_of_lt {x : ℚ} {k : ℤ} (hx : x ≠ 0) (hk : -1022 ≤ k)
    (h : |x| < (2 : ℚ) ^ (k + 1)) : ulp x ≤ (2 : ℚ) ^ (k - 52) := by
  unfold ulp
  apply zpow_le_zpow_right₀ (by norm_num)
  obtain ⟨s1, _⟩ := binaryExponent_spec hx
  have two : (1 : ℚ) < 2 := by norm_num
  have l : binaryExponent x < k + 1 := (zpow_lt_zpow_iff_right₀ two).mp (lt_of_le_of_lt s1 h)
  have := max_le (show binaryExponent x ≤ k by omega) hk
  omega

theorem roundDouble_error_of_le {x : ℚ} (h : |x| ≤ 100) :
    |roundDouble x - x| ≤ (2 : ℚ) ^ (-47 : ℤ) := by
  by_cases hx : x = 0
  · rw [hx]
    have : roundDouble 0 = 0 := by simp [roundDouble]
    rw [this, sub_zero, abs_zero]
    positivity
  · have h1 := roundDouble_error x
    have h2 : ulp x ≤ (2 : ℚ) ^ ((6 : ℤ) - 52) :=
      ulp_le_of_lt hx (by norm_num) (lt_of_le_of_lt h (by norm_num))
    have h3 : (2 : ℚ) ^ ((6 : ℤ) - 52) / 2 = (2 : ℚ) ^ (-47 : ℤ) := by norm_num
    calc |roundDouble x - x| ≤ ulp x / 2 := h1
      _ ≤ (2 : ℚ) ^ ((6 : ℤ) - 52) / 2 := div_le_div_of_nonneg_right h2 (by norm_num)
      _ = (2 : ℚ) ^ (-47 : ℤ) := h3

theorem roundDouble_eq {x : ℚ} {k m : ℤ} (h1 : (2 : ℚ) ^ k ≤ |x|)
    (h2 : |x| < (2 : ℚ) ^ (k + 1)) (hk : -1022 ≤ k)
    (hm : |(m : ℚ) - x / (2 : ℚ) ^ (k - 52)| < 1 / 2) :
    roundDouble x = (m : ℚ) * (2 : ℚ) ^ (k - 52) := by
  have hx : x ≠ 0 := by
    intro h0
    rw [h0, abs_zero] at h1
    have : (0 : ℚ) < (2 : ℚ) ^ k := by positivity
    linarith
  have hu : ulp x = (2 : ℚ) ^ (k - 52) := by
    unfold ulp
    rw [binaryExponent_eq h1 h2, max_eq_left hk]
  unfold roundDouble
  rw [if_neg hx, hu, roundHalfEven_eq hm]

theorem roundDouble_nonneg {x : ℚ} (hx : 0 ≤ x) : 0 ≤ roundDouble x := by
  unfold roundDouble
  split_ifs with h
  · exact le_refl 0
  · have hu := ulp_pos x
    have hq : 0 ≤ x / ulp x := div_nonneg hx (le_of_lt hu)
    have hf : 0 ≤ ⌊x / ulp x⌋ := Int.floor_nonneg.mpr hq
    have hr : 0 ≤ roundHalfEven (x / ulp x) := by
      rcases roundHalfEven_cases (x / ulp x) with ⟨h1, _⟩ | ⟨h1, _⟩ <;> rw [h1] <;> omega
    have hrq : (0 : ℚ) ≤ (roundHalfEven (x / ulp x) : ℚ) := by exact_mod_cast hr
    exact mul_nonneg hrq (le_of_lt hu)

/-! ## Displayed confidence -/

theorem tenths_bounds {x : ℚ} (hx : 0 ≤ x) :
    ((tenths x : ℕ) : ℚ) / 10 - x ≤ 1 / 20 ∧ x - ((tenths x : ℕ) : ℚ) / 10 < 1 / 20 := by
  have hnn : 0 ≤ ⌊10 * x + 1 / 2⌋ := Int.floor_nonneg.mpr (by linarith)
  have hcast : ((tenths x : ℕ) : ℚ) = ((⌊10 * x + 1 / 2⌋ : ℤ) : ℚ) := by
    unfold tenths
    have hz : ((Int.toNat ⌊10 * x + 1 / 2⌋ : ℕ) : ℤ) = ⌊10 * x + 1 / 2⌋ := Int.toNat_of_nonneg hnn
    exact_mod_cast congrArg (fun z : ℤ => (z : ℚ)) hz
  have h1 := Int.floor_le (10 * x + 1 / 2)
  have h2 := Int.lt_floor_add_one (10 * x + 1 / 2)
  rw [hcast]
  constructor <;> linarith

theorem tenths_eq {x : ℚ} {n : ℕ} (h1 : (n : ℚ) ≤ 10 * x + 1 / 2)
    (h2 : 10 * x + 1 / 2 < (n : ℚ) + 1) : tenths x = n := by
  unfold tenths
  have hf : ⌊10 * x + 1 / 2⌋ = (n : ℤ) := by
    rw [Int.floor_eq_iff]
    exact ⟨by exact_mod_cast h1, by exact_mod_cast h2⟩
  rw [hf]
  exact Int.toNat_natCast n

theorem displayedText_of_result {p : RecordPage} {r : IdentificationResult}
    (hres : p.result = some r) (hstatus : p.status = .success ∨ p.status = .denied)
    (h0 : 0 ≤ r.confidence) :
    RecordPage.displayedText p
      = some (toString (tenths (mulDouble r.confidence 100) / 10) ++ "."
          ++ toString (tenths (mulDouble r.confidence 100) % 10) ++ "%") := by
  have hnot : ¬ mulDouble r.confidence 100 < 0 :=
    not_lt.mpr (roundDouble_nonneg (by positivity))
  rcases hstatus with hs | hs <;>
    simp [RecordPage.displayedText, RecordPage.displayedConfidence, hres, hs, toFixed1, hnot]

theorem confidence_high : roundDouble (23 / 25) = 8286623314361713 / 9007199254740992 := by
  have h := @roundDouble_eq (23 / 25) (-1) 8286623314361713 (by norm_num [abs_of_pos])
    (by norm_num [abs_of_pos]) (by norm_num) (by norm_num [abs_lt])
  rw [h]
  norm_num

theorem confidence_low : roundDouble (11 / 20) = 2476979795053773 / 4503599627370496 := by
  have h := @roundDouble_eq (11 / 20) (-1) 4953959590107546 (by norm_num [abs_of_pos])
    (by norm_num [abs_of_pos]) (by norm_num) (by norm_num [abs_lt])
  rw [h]
  norm_num

theorem confidence_tie : roundDouble (1627 / 2000) = 7327356593731797 / 9007199254740992 := by
  have h := @roundDouble_eq (1627 / 2000) (-1) 7327356593731797 (by norm_num [abs_of_pos])
    (by norm_num [abs_of_pos]) (by norm_num) (by norm_num [abs_lt])
  rw [h]
  norm_num

theorem product_high : mulDouble resultHigh.confidence 100 = 92 := by
  show roundDouble (roundDouble (23 / 25) * 100) = 92
  rw [confidence_high]
  have h := @roundDouble_eq (8286623314361713 / 9007199254740992 * 100) 6 6473924464345088
    (by norm_num [abs_of_pos]) (by norm_num [abs_of_pos]) (by norm_num)
    (by norm_num [abs_lt])
  rw [h]
  norm_num

theorem product_low :
    mulDouble resultLow.confidence 100 = 7740561859543041 / 140737488355328 := by
  show roundDouble (roundDouble (11 / 20) * 100) = _
  rw [confidence_low]
  have h := @roundDouble_eq (2476979795053773 / 4503599627370496 * 100) 5 7740561859543041
    (by norm_num [abs_of_pos]) (by norm_num [abs_of_pos]) (by norm_num)
    (by norm_num [abs_lt])
  rw [h]
  norm_num

theorem product_tie :
    mulDouble resultTie.confidence 100 = 2862248669426483 / 35184372088832 := by
  show roundDouble (roundDouble (1627 / 2000) * 100) = _
  rw [confidence_tie]
  have h := @roundDouble_eq (7327356593731797 / 9007199254740992 * 100) 6 5724497338852966
    (by norm_num [abs_of_pos]) (by norm_num [abs_of_pos]) (by norm_num)
    (by norm_num [abs_lt])
  rw [h]
  norm_num

/-- C18 (counterexample): the confidence is the binary64 number written `0.8135` and the
success view is shown.  The product with 100 is rounded to a binary64 number just below
81.35, so the text is "81.3%"; the confidence times 100 is above 81.35, its nearest tenth is
81.4, and 81.3 is more than 0.05 away from it. -/
theorem C18_counterexample :
    RecordPage.displayedText RecordPage.tiePage = some "81.3%"
    ∧ 0 ≤ resultTie.confidence ∧ resultTie.confidence ≤ 1
    ∧ (1 : ℚ) / 20 < resultTie.confidence * 100 - 813 / 10
    ∧ |(814 : ℚ) / 10 - resultTie.confidence * 100| < 1 / 20 := by
  have hc : resultTie.confidence = 7327356593731797 / 9007199254740992 := confidence_tie
  have h0 : 0 ≤ resultTie.confidence := by
    rw [hc]
    norm_num
  refine ⟨?_, h0, ?_, ?_, ?_⟩
  · have ht := @displayedText_of_result RecordPage.tiePage resultTie rfl (Or.inl rfl) h0
    have hn : tenths (mulDouble resultTie.confidence 100) = 813 := by
      rw [product_tie]
      exact tenths_eq (by norm_num) (by norm_num)
    rw [ht, hn]
    decide
  · rw [hc]
    norm_num
  · rw [hc]
    norm_num
  · rw [hc, abs_lt]
    constructor <;> norm_num

/-- C18 (amended): when a result with confidence `c` in `[0, 1]` is displayed, in the success
view or in the denied view, the text is `n / 10`, a point, the digit `n % 10` and `%`, where
`n / 10` is the binary64 product `c * 100` rounded to one decimal place, the larger of two
candidates: `n ≤ 1000`, `n / 10` exceeds the product by at most `0.05` and falls short of it
by less than `0.05`; the binary64 product differs from `c × 100` by at most `2 ^ (-47)`. -/
theorem C18_displayed_confidence (p : RecordPage) (r : IdentificationResult)
    (hres : p.result = some r) (hstatus : p.status = .success ∨ p.status = .denied)
    (h0 : 0 ≤ r.confidence) (h1 : r.confidence ≤ 1) :
    ∃ n : ℕ,
      RecordPage.displayedText p
        = some (toString (n / 10) ++ "." ++ toString (n % 10) ++ "%")
      ∧ n % 10 < 10 ∧ n ≤ 1000
      ∧ (n : ℚ) / 10 - mulDouble r.confidence 100 ≤ 1 / 20
      ∧ mulDouble r.confidence 100 - (n : ℚ) / 10 < 1 / 20
      ∧ |mulDouble r.confidence 100 - r.confidence * 100| ≤ (2 : ℚ) ^ (-47 : ℤ) := by
  have hx : 0 ≤ r.confidence * 100 := by positivity
  have hle : |r.confidence * 100| ≤ 100 := by
    rw [abs_of_nonneg hx]
    linarith
  have herr : |mulDouble r.confidence 100 - r.confidence * 100| ≤ (2 : ℚ) ^ (-47 : ℤ) :=
    roundDouble_error_of_le hle
  have hp : 0 ≤ mulDouble r.confidence 100 := roundDouble_nonneg hx
  obtain ⟨b1, b2⟩ := tenths_bounds hp
  refine ⟨tenths (mulDouble r.confidence 100), displayedText_of_result hres hstatus h0,
    Nat.mod_lt _ (by decide), ?_, b1, b2, herr⟩
  by_contra hgt
  have hge : 1001 ≤ tenths (mulDouble r.confidence 100) := by omega
  have hgeq : (1001 : ℚ) ≤ ((tenths (mulDouble r.confidence 100) : ℕ) : ℚ) := by
    exact_mod_cast hge
  have hsmall : (2 : ℚ) ^ (-47 : ℤ) ≤ 1 / 100 := by norm_num
  have hup : mulDouble r.confidence 100 - r.confidence * 100 ≤ 1 / 100 :=
    le_trans (abs_le.mp herr).2 hsmall
  linarith

/-- C18 (amended) at the binary64 confidences written 0.92, in the success view, and 0.55, in
the denied view: the texts are "92.0%" and "55.0%". -/
theorem C18_witness :
    RecordPage.displayedText RecordPage.acceptedPage = some "92.0%"
    ∧ RecordPage.displayedText RecordPage.deniedPage = some "55.0%" := by
  have hhigh : resultHigh.confidence = 8286623314361713 / 9007199254740992 := confidence_high
  have hlow : resultLow.confidence = 2476979795053773 / 4503599627370496 := confidence_low
  constructor
  · obtain ⟨n, htext, _, _, hup, hdown, _⟩ := C18_displayed_confidence
      RecordPage.acceptedPage resultHigh rfl (Or.inl rfl)
      (by rw [hhigh]; norm_num) (by rw [hhigh]; norm_num)
    have hn : n = 920 := by
      rw [product_high] at hup hdown
      have hu2 : (n : ℚ) < 921 := by linarith
      have hd2 : (919 : ℚ) < (n : ℚ) := by linarith
      have hu3 : n < 921 := by exact_mod_cast hu2
      have hd3 : 919 < n := by exact_mod_cast hd2
      omega
    rw [htext, hn]
    decide
  · obtain ⟨n, htext, _, _, hup, hdown, _⟩ := C18_displayed_confidence
      RecordPage.deniedPage resultLow rfl (Or.inr rfl)
      (by rw [hlow]; norm_num) (by rw [hlow]; norm_num)
    have hn : n = 550 := by
      rw [product_low] at hup hdown
      have hu2 : (n : ℚ) < 551 := by linarith
      have hd2 : (549 : ℚ) < (n : ℚ) := by linarith
      have hu3 : n < 551 := by exact_mod_cast hu2
      have hd3 : 549 < n := by exact_mod_cast hd2
      omega
    rw [htext, hn]
    decide

end VKR
